import Mathlib

/-!
Verification of the `maidenhead` library (src/lib.rs): conversion between
Maidenhead grid-square locator strings and longitude/latitude coordinates,
plus haversine distance/bearing.  The pure encode/decode arithmetic is
embedded over exact rationals (`ℚ`); the trigonometric geodesy is embedded
over the reals (`ℝ`).  Strings are modelled as Lean `String`s, with Rust's
byte-oriented `str::len` modelled by `byteLen` (the sum of UTF-8 sizes).
-/

namespace Maidenhead

/-- Error type of the library, mirroring `enum MHError` in src/lib.rs.
Coordinates carried by `InvalidLongLat` are modelled as exact rationals. -/
inductive MHError where
  | invalidGrid : String → MHError
  | invalidGridLength : Nat → MHError
  | invalidLongLat : ℚ → ℚ → MHError
  | unknown : MHError
deriving DecidableEq, Repr

instance {ε α : Type} [DecidableEq ε] [DecidableEq α] : DecidableEq (Except ε α) := fun a b =>
  match a, b with
  | .error e, .error f =>
    if h : e = f then isTrue (congrArg Except.error h)
    else isFalse (fun he => h (Except.error.inj he))
  | .ok x, .ok y =>
    if h : x = y then isTrue (congrArg Except.ok h)
    else isFalse (fun he => h (Except.ok.inj he))
  | .error _, .ok _ => isFalse Except.noConfusion
  | .ok _, .error _ => isFalse Except.noConfusion

def LONG_OFFSET : ℚ := 180
def LAT_OFFSET : ℚ := 90

def LONG_F : ℚ := 20
def LAT_F : ℚ := 10
def LONG_SQ : ℚ := 2
def LAT_SQ : ℚ := 1
def LONG_SSQ : ℚ := 5 / 60
def LAT_SSQ : ℚ := 2.5 / 60
def LONG_ESQ : ℚ := 30 / 60 / 60
def LAT_ESQ : ℚ := 15 / 60 / 60
def LONG_SESQ : ℚ := 1.25 / 60 / 60
def LAT_SESQ : ℚ := 0.625 / 60 / 60

def LONG_MULT : List ℚ := [LONG_F, LONG_SQ, LONG_SSQ, LONG_ESQ, LONG_SESQ]
def LAT_MULT : List ℚ := [LAT_F, LAT_SQ, LAT_SSQ, LAT_ESQ, LAT_SESQ]

/-- Number of UTF-8 bytes of a character list; models Rust `str::len`
(which is a byte count, not a character count). -/
def byteLen (cs : List Char) : Nat := (cs.map Char.utf8Size).sum

/-- Truncation of a rational toward zero, as an integer; models the rounding
used by Rust `f64 as u32` casts and by `%` on `f64`. -/
def ftrunc (q : ℚ) : ℤ := if 0 ≤ q then ⌊q⌋ else -⌊-q⌋

/-- Remainder with the sign of the dividend; models `%` on `f64`. -/
def fmod (x y : ℚ) : ℚ := x - y * (ftrunc (x / y) : ℚ)

/-- Saturating cast to `u32`; models `as u32` applied to an `f64` value
(negative values clamp to 0, large values clamp to `u32::MAX`). -/
def f64_as_u32 (q : ℚ) : Nat := min (ftrunc q).toNat 4294967295

/-- Models the closure `charoff = |base, off| std::char::from_u32(base as u32 + off)`
in `longlat_to_grid`: the code point is valid unless it is a surrogate or
above 0x10FFFF. -/
def charoff (base : Char) (off : Nat) : Option Char :=
  if base.toNat + off < 55296 ∨ (57343 < base.toNat + off ∧ base.toNat + off < 1114112)
  then some (Char.ofNat (base.toNat + off)) else none

/-- Models the Rust closure `is_digit = |c| c.is_ascii_digit()`. -/
def is_digit (c : Char) : Bool := c.isDigit

/-- Models the Rust closure `is_alpha = |c| c.is_ascii_alphabetic()`. -/
def is_alpha (c : Char) : Bool := c.isAlpha

/-- The per-position character-class pattern of `grid_to_longlat`. -/
def pattern : List (Char → Bool) :=
  [is_alpha, is_alpha, is_digit, is_digit, is_alpha, is_alpha, is_digit, is_digit,
   is_alpha, is_alpha]

/-- Models `iter().step_by(2)` on a list: keep elements at even indices. -/
def stepBy2 {α : Type} : List α → List α
  | [] => []
  | [a] => [a]
  | a :: _ :: rest => a :: stepBy2 rest

/-- The reference baseline string `"AA00AA00AA"` of `grid_to_longlat`. -/
def reference : List Char := "AA00AA00AA".data

/-- Models the `vals` vector of `grid_to_longlat`: per-character numeric
offsets from the reference baseline (input uppercased first). -/
def decodeVals (cs : List Char) : List Nat :=
  (reference.zip cs).map fun p => p.2.toUpper.toNat - p.1.toNat

/-- Models the `is_valid` check of `grid_to_longlat`:
`grid.chars().zip(pattern).take(grid.len()).all(|(c, f)| f(c))`. -/
def gridIsValid (cs : List Char) : Bool :=
  ((cs.zip pattern).take (byteLen cs)).all fun p => p.2 p.1

/-- Embedding of `grid_to_longlat` (src/lib.rs lines 67-125). -/
def grid_to_longlat (grid : String) : Except MHError (ℚ × ℚ) :=
  if ! gridIsValid grid.data then .error (.invalidGrid grid)
  else if byteLen grid.data = 4 ∨ byteLen grid.data = 6 ∨ byteLen grid.data = 8 ∨
      byteLen grid.data = 10 then
    let vals := decodeVals grid.data
    let long : ℚ := (((stepBy2 vals).zip LONG_MULT).map fun p => (p.1 : ℚ) * p.2).sum
    let lat : ℚ := (((stepBy2 vals.tail).zip LAT_MULT).map fun p => (p.1 : ℚ) * p.2).sum
    let idx := byteLen grid.data / 2 - 1
    .ok (long + LONG_MULT.getD idx 0 / 2 - LONG_OFFSET,
         lat + LAT_MULT.getD idx 0 / 2 - LAT_OFFSET)
  else .error (.invalidGridLength (byteLen grid.data))

/-- Embedding of `longlat_to_grid` (src/lib.rs lines 140-179). -/
def longlat_to_grid (long lat : ℚ) (precision : Nat) : Except MHError String :=
  if precision = 4 ∨ precision = 6 ∨ precision = 8 ∨ precision = 10 then
    if ¬ (-180 ≤ long ∧ long ≤ 180) ∨ ¬ (-90 ≤ lat ∧ lat ≤ 90) then
      .error (.invalidLongLat long lat)
    else
      let adj_long := long + LONG_OFFSET
      let adj_lat := lat + LAT_OFFSET
      let vals : List ℚ := [adj_long / LONG_F, adj_lat / LAT_F,
        fmod adj_long LONG_F / LONG_SQ, fmod adj_lat LAT_F / LAT_SQ,
        fmod adj_long LONG_SQ / LONG_SSQ, fmod adj_lat LAT_SQ / LAT_SSQ,
        fmod adj_long LONG_SSQ / LONG_ESQ, fmod adj_lat LAT_SSQ / LAT_ESQ,
        fmod adj_long LONG_ESQ / LONG_SESQ, fmod adj_lat LAT_ESQ / LAT_SESQ]
      match ("AA00aa00AA".data.zip (vals.take precision)).mapM
          (fun p => charoff p.1 (f64_as_u32 p.2)) with
      | some cs => .ok (String.mk cs)
      | none => .error .unknown
  else .error (.invalidGridLength precision)

/-- Four-quadrant arctangent with the IEEE-754 `atan2` branch conventions
used by Rust `f64::atan2`; range `(-π, π]`. -/
noncomputable def atan2 (y x : ℝ) : ℝ :=
  if 0 < x then Real.arctan (y / x)
  else if x < 0 then
    (if 0 ≤ y then Real.arctan (y / x) + Real.pi else Real.arctan (y / x) - Real.pi)
  else if 0 < y then Real.pi / 2
  else if y < 0 then -(Real.pi / 2)
  else 0

/-- Models `f64::to_radians`. -/
noncomputable def toRadians (x : ℝ) : ℝ := x * (Real.pi / 180)

/-- Models `f64::to_degrees`. -/
noncomputable def toDegrees (x : ℝ) : ℝ := x * (180 / Real.pi)

/-- Truncation toward zero on the reals (for the real-valued `%` model). -/
noncomputable def ftruncR (r : ℝ) : ℤ := if 0 ≤ r then ⌊r⌋ else -⌊-r⌋

/-- Remainder with the sign of the dividend; models `%` on `f64` over `ℝ`. -/
noncomputable def fremR (x y : ℝ) : ℝ := x - y * (ftruncR (x / y) : ℝ)

/-- The trigonometric core of `grid_dist_bearing` (src/lib.rs lines 203-221),
applied to already-decoded coordinates. -/
noncomputable def distBearing (from_long from_lat to_long to_lat : ℚ) : ℝ × ℝ :=
  let dl : ℝ := toRadians ((to_long : ℝ) - (from_long : ℝ))
  let dp : ℝ := toRadians ((to_lat : ℝ) - (from_lat : ℝ))
  let p1 : ℝ := toRadians (from_lat : ℝ)
  let p2 : ℝ := toRadians (to_lat : ℝ)
  let a : ℝ := Real.sin (dp / 2) ^ 2 + Real.cos p1 * Real.cos p2 * Real.sin (dl / 2) ^ 2
  let c : ℝ := 2 * atan2 (Real.sqrt a) (Real.sqrt (1 - a))
  let dist : ℝ := 6371 * c
  let bearing : ℝ := atan2 (Real.sin dl * Real.cos p2)
    (Real.cos p1 * Real.sin p2 - Real.sin p1 * Real.cos p2 * Real.cos dl)
  (dist, fremR (toDegrees bearing + 360) 360)

/-- Embedding of `grid_dist_bearing` (src/lib.rs lines 202-222). -/
noncomputable def grid_dist_bearing (f t : String) : Except MHError (ℝ × ℝ) :=
  match grid_to_longlat f with
  | .error e => .error e
  | .ok p =>
    match grid_to_longlat t with
    | .error e => .error e
    | .ok q => .ok (distBearing p.1 p.2 q.1 q.2)

/-- Embedding of `grid_distance` (src/lib.rs lines 235-238). -/
noncomputable def grid_distance (f t : String) : Except MHError ℝ :=
  match grid_dist_bearing f t with
  | .error e => .error e
  | .ok p => .ok p.1

/-- Embedding of `grid_bearing` (src/lib.rs lines 251-254). -/
noncomputable def grid_bearing (f t : String) : Except MHError ℝ :=
  match grid_dist_bearing f t with
  | .error e => .error e
  | .ok p => .ok p.2

/-- Per-position case normalization following the encoder output alphabet
`"AA00aa00AA"`: field and superextended-square letters uppercased, subsquare
letters lowercased, digits unchanged. -/
def normChar (b c : Char) : Char :=
  if b = 'a' then c.toLower else if b = 'A' then c.toUpper else c

/-- Case-normalize a locator character list position by position. -/
def normalize (cs : List Char) : List Char :=
  ("AA00aa00AA".data.zip cs).map fun p => normChar p.1 p.2

/-- Canonical field character: an ASCII letter in the range `A`-`R`
(case-insensitive). -/
def fieldOK (c : Char) : Bool := c.isAlpha && c.toUpper ≤ 'R'

/-- Canonical subsquare/superextended-square character: an ASCII letter in
the range `A`-`X` (case-insensitive). -/
def sub24OK (c : Char) : Bool := c.isAlpha && c.toUpper ≤ 'X'

/-- The canonical per-position alphabet named by the source FIXME comment:
`A-R 0-9 a-x 0-9 A-X`, case-insensitive. -/
def canonPattern : List (Char → Bool) :=
  [fieldOK, fieldOK, is_digit, is_digit, sub24OK, sub24OK, is_digit, is_digit,
   sub24OK, sub24OK]

/-- Canonical Maidenhead validity: an accepted length and every character in
its canonical per-position alphabet. -/
def canonicalValid (grid : String) : Bool :=
  (byteLen grid.data = 4 || byteLen grid.data = 6 || byteLen grid.data = 8 ||
   byteLen grid.data = 10)
  && ((grid.data.zip canonPattern).all fun p => p.2 p.1)

/-- Character classes of an encoder output string: uppercase letters at field
and superextended-square positions, lowercase letters at subsquare positions,
ASCII digits at square and extended-square positions. -/
def shapePattern : List (Char → Bool) :=
  [Char.isUpper, Char.isUpper, is_digit, is_digit, Char.isLower, Char.isLower,
   is_digit, is_digit, Char.isUpper, Char.isUpper]

/-! Helper lemmas about characters. -/

theorem uint32_bv_toNat (x : UInt32) : x.toBitVec.toNat = x.toNat := rfl

theorem isDigit_iff {c : Char} : c.isDigit = true ↔ 48 ≤ c.toNat ∧ c.toNat ≤ 57 := by
  simp [Char.isDigit, UInt32.le_def, BitVec.le_def, Char.toNat, uint32_bv_toNat]

theorem isAlpha_iff {c : Char} :
    c.isAlpha = true ↔ (65 ≤ c.toNat ∧ c.toNat ≤ 90) ∨ (97 ≤ c.toNat ∧ c.toNat ≤ 122) := by
  simp [Char.isAlpha, Char.isUpper, Char.isLower, UInt32.le_def, BitVec.le_def, Char.toNat,
    uint32_bv_toNat]

theorem isUpper_iff {c : Char} : c.isUpper = true ↔ 65 ≤ c.toNat ∧ c.toNat ≤ 90 := by
  simp [Char.isUpper, UInt32.le_def, BitVec.le_def, Char.toNat, uint32_bv_toNat]

theorem isLower_iff {c : Char} : c.isLower = true ↔ 97 ≤ c.toNat ∧ c.toNat ≤ 122 := by
  simp [Char.isLower, UInt32.le_def, BitVec.le_def, Char.toNat, uint32_bv_toNat]

theorem toNat_ofNat_valid {n : Nat} (h : n < 55296) : (Char.ofNat n).toNat = n := by
  rw [Char.ofNat, dif_pos (Or.inl h)]
  rfl

theorem char_eq_of_toNat_eq {c d : Char} (h : c.toNat = d.toNat) : c = d :=
  Char.eq_of_val_eq (UInt32.ext h)

theorem toUpper_toNat (c : Char) :
    c.toUpper.toNat = if 97 ≤ c.toNat ∧ c.toNat ≤ 122 then c.toNat - 32 else c.toNat := by
  rw [Char.toUpper]
  split
  · next h => rw [Char.ofNat, dif_pos (Or.inl (by omega))]; rfl
  · rfl

theorem toLower_toNat (c : Char) :
    c.toLower.toNat = if 65 ≤ c.toNat ∧ c.toNat ≤ 90 then c.toNat + 32 else c.toNat := by
  rw [Char.toLower]
  split
  · next h => rw [Char.ofNat, dif_pos (Or.inl (by omega))]; rfl
  · rfl

theorem utf8Size_eq_one {c : Char} (h : c.toNat ≤ 127) : c.utf8Size = 1 := by
  rw [Char.utf8Size, if_pos]
  simp only [UInt32.le_def, BitVec.le_def]
  exact h

/-! Helper lemmas about truncation, `fmod` and `f64 as u32` casts. -/

theorem ftrunc_of_nonneg {q : ℚ} (h : 0 ≤ q) : ftrunc q = ⌊q⌋ := if_pos h

theorem ftrunc_cast_natFloor {q : ℚ} (h : 0 ≤ q) : ((ftrunc q : ℤ) : ℚ) = (⌊q⌋₊ : ℚ) := by
  rw [ftrunc_of_nonneg h, ← Int.natCast_floor_eq_floor h]
  exact Int.cast_natCast _

theorem f64_as_u32_eq {q : ℚ} (h : 0 ≤ q) (h2 : ⌊q⌋₊ ≤ 4294967295) :
    f64_as_u32 q = ⌊q⌋₊ := by
  unfold f64_as_u32
  rw [ftrunc_of_nonneg h, Int.floor_toNat]
  exact min_eq_left h2

theorem head_digit (x w : ℚ) (hx : 0 ≤ x) (hw : 0 < w) (h2 : ⌊x / w⌋₊ ≤ 4294967295) :
    f64_as_u32 (x / w) = ⌊x / w⌋₊ :=
  f64_as_u32_eq (div_nonneg hx hw.le) h2

theorem natFloor_div_step (x w : ℚ) (r : ℕ) (_hw : w ≠ 0) (_hr : 0 < r) :
    ⌊x / ((r : ℚ) * w)⌋₊ = ⌊x / w⌋₊ / r := by
  have : x / ((r : ℚ) * w) = x / w / r := by
    rw [div_div, mul_comm]
  rw [this, Nat.floor_div_nat (x / w) r]

theorem fmod_digit (x w : ℚ) (r : ℕ) (hx : 0 ≤ x) (hw : 0 < w) (hr : 0 < r)
    (hr2 : r ≤ 4294967295) :
    f64_as_u32 (fmod x ((r : ℚ) * w) / w) = ⌊x / w⌋₊ % r := by
  have hrQ : (0 : ℚ) < (r : ℚ) := by exact_mod_cast hr
  have hrw : (0 : ℚ) < (r : ℚ) * w := mul_pos hrQ hw
  have hxw : 0 ≤ x / w := div_nonneg hx hw.le
  have hstep : ⌊x / ((r : ℚ) * w)⌋₊ = ⌊x / w⌋₊ / r := natFloor_div_step x w r hw.ne' hr
  have hval : fmod x ((r : ℚ) * w) / w = x / w - ((r * (⌊x / w⌋₊ / r) : ℕ) : ℚ) := by
    unfold fmod
    rw [ftrunc_cast_natFloor (div_nonneg hx hrw.le), hstep]
    push_cast
    field_simp
    ring
  have hkN : r * (⌊x / w⌋₊ / r) ≤ ⌊x / w⌋₊ := by
    rw [Nat.mul_comm]
    exact Nat.div_mul_le_self _ _
  have hNle : ((⌊x / w⌋₊ : ℕ) : ℚ) ≤ x / w := Nat.floor_le hxw
  have hNlt : x / w < ((⌊x / w⌋₊ : ℕ) : ℚ) + 1 := Nat.lt_floor_add_one (x / w)
  have hkle : ((r * (⌊x / w⌋₊ / r) : ℕ) : ℚ) ≤ ((⌊x / w⌋₊ : ℕ) : ℚ) := by
    exact_mod_cast hkN
  have h0 : 0 ≤ x / w - ((r * (⌊x / w⌋₊ / r) : ℕ) : ℚ) := by linarith
  have hflo : ⌊x / w - ((r * (⌊x / w⌋₊ / r) : ℕ) : ℚ)⌋₊ = ⌊x / w⌋₊ - r * (⌊x / w⌋₊ / r) := by
    rw [Nat.floor_eq_iff h0]
    constructor
    · have : ((⌊x / w⌋₊ - r * (⌊x / w⌋₊ / r) : ℕ) : ℚ)
          = ((⌊x / w⌋₊ : ℕ) : ℚ) - ((r * (⌊x / w⌋₊ / r) : ℕ) : ℚ) := by
        push_cast [Nat.cast_sub hkN]
        ring
      rw [this]
      linarith
    · have : ((⌊x / w⌋₊ - r * (⌊x / w⌋₊ / r) : ℕ) : ℚ)
          = ((⌊x / w⌋₊ : ℕ) : ℚ) - ((r * (⌊x / w⌋₊ / r) : ℕ) : ℚ) := by
        push_cast [Nat.cast_sub hkN]
        ring
      rw [this]
      linarith
  have hmod := Nat.mod_add_div ⌊x / w⌋₊ r
  have hmlt := Nat.mod_lt ⌊x / w⌋₊ hr
  rw [hval, f64_as_u32_eq h0 (by rw [hflo]; omega), hflo]
  omega

/-! Symbolic evaluation of the decoder on character lists of each accepted
length, with each character constrained to the class the validator checks. -/

theorem reference_chars : reference = ['A', 'A', '0', '0', 'A', 'A', '0', '0', 'A', 'A'] := rfl

theorem decode4 (c0 c1 c2 c3 : Char) (h0 : is_alpha c0 = true) (h1 : is_alpha c1 = true)
    (h2 : is_digit c2 = true) (h3 : is_digit c3 = true) :
    grid_to_longlat (String.mk [c0, c1, c2, c3]) =
      .ok (((c0.toUpper.toNat - 65 : ℕ) : ℚ) * 20 + ((c2.toNat - 48 : ℕ) : ℚ) * 2 + 1 - 180,
           ((c1.toUpper.toNat - 65 : ℕ) : ℚ) * 10 + ((c3.toNat - 48 : ℕ) : ℚ) * 1
             + 1 / 2 - 90) := by
  have ha0 := isAlpha_iff.mp (by simpa [is_alpha] using h0)
  have ha1 := isAlpha_iff.mp (by simpa [is_alpha] using h1)
  have hd2 := isDigit_iff.mp (by simpa [is_digit] using h2)
  have hd3 := isDigit_iff.mp (by simpa [is_digit] using h3)
  have s0 : c0.utf8Size = 1 := utf8Size_eq_one (by omega)
  have s1 : c1.utf8Size = 1 := utf8Size_eq_one (by omega)
  have s2 : c2.utf8Size = 1 := utf8Size_eq_one (by omega)
  have s3 : c3.utf8Size = 1 := utf8Size_eq_one (by omega)
  have hbl : byteLen [c0, c1, c2, c3] = 4 := by simp [byteLen, s0, s1, s2, s3]
  have hup2 : c2.toUpper.toNat = c2.toNat := by rw [toUpper_toNat, if_neg]; omega
  have hup3 : c3.toUpper.toNat = c3.toNat := by rw [toUpper_toNat, if_neg]; omega
  have hvalid : gridIsValid [c0, c1, c2, c3] = true := by
    simp [gridIsValid, pattern, hbl, h0, h1, h2, h3]
  rw [grid_to_longlat]
  rw [show (String.mk [c0, c1, c2, c3]).data = [c0, c1, c2, c3] from rfl]
  rw [hvalid, hbl]
  simp only [Bool.not_true, Bool.false_eq_true, if_false, reduceIte]
  simp only [decodeVals, reference_chars, List.zip_cons_cons, List.zip_nil_right,
    List.map_cons, List.map_nil, List.tail_cons, stepBy2, List.sum_cons, List.sum_nil,
    LONG_MULT, LAT_MULT, LONG_F, LONG_SQ, LONG_SSQ, LONG_ESQ, LONG_SESQ, LAT_F, LAT_SQ,
    LAT_SSQ, LAT_ESQ, LAT_SESQ, LONG_OFFSET, LAT_OFFSET]
  norm_num [hup2, hup3, show 'A'.toNat = 65 from rfl, show '0'.toNat = 48 from rfl]

theorem decode6 (c0 c1 c2 c3 c4 c5 : Char) (h0 : is_alpha c0 = true)
    (h1 : is_alpha c1 = true) (h2 : is_digit c2 = true) (h3 : is_digit c3 = true)
    (h4 : is_alpha c4 = true) (h5 : is_alpha c5 = true) :
    grid_to_longlat (String.mk [c0, c1, c2, c3, c4, c5]) =
      .ok (((c0.toUpper.toNat - 65 : ℕ) : ℚ) * 20 + ((c2.toNat - 48 : ℕ) : ℚ) * 2
             + ((c4.toUpper.toNat - 65 : ℕ) : ℚ) * (1 / 12) + 1 / 24 - 180,
           ((c1.toUpper.toNat - 65 : ℕ) : ℚ) * 10 + ((c3.toNat - 48 : ℕ) : ℚ) * 1
             + ((c5.toUpper.toNat - 65 : ℕ) : ℚ) * (1 / 24) + 1 / 48 - 90) := by
  have ha0 := isAlpha_iff.mp (by simpa [is_alpha] using h0)
  have ha1 := isAlpha_iff.mp (by simpa [is_alpha] using h1)
  have hd2 := isDigit_iff.mp (by simpa [is_digit] using h2)
  have hd3 := isDigit_iff.mp (by simpa [is_digit] using h3)
  have ha4 := isAlpha_iff.mp (by simpa [is_alpha] using h4)
  have ha5 := isAlpha_iff.mp (by simpa [is_alpha] using h5)
  have s0 : c0.utf8Size = 1 := utf8Size_eq_one (by omega)
  have s1 : c1.utf8Size = 1 := utf8Size_eq_one (by omega)
  have s2 : c2.utf8Size = 1 := utf8Size_eq_one (by omega)
  have s3 : c3.utf8Size = 1 := utf8Size_eq_one (by omega)
  have s4 : c4.utf8Size = 1 := utf8Size_eq_one (by omega)
  have s5 : c5.utf8Size = 1 := utf8Size_eq_one (by omega)
  have hbl : byteLen [c0, c1, c2, c3, c4, c5] = 6 := by
    simp [byteLen, s0, s1, s2, s3, s4, s5]
  have hup2 : c2.toUpper.toNat = c2.toNat := by rw [toUpper_toNat, if_neg]; omega
  have hup3 : c3.toUpper.toNat = c3.toNat := by rw [toUpper_toNat, if_neg]; omega
  have hvalid : gridIsValid [c0, c1, c2, c3, c4, c5] = true := by
    simp [gridIsValid, pattern, hbl, h0, h1, h2, h3, h4, h5]
  rw [grid_to_longlat]
  rw [show (String.mk [c0, c1, c2, c3, c4, c5]).data = [c0, c1, c2, c3, c4, c5] from rfl]
  rw [hvalid, hbl]
  simp only [Bool.not_true, Bool.false_eq_true, if_false, reduceIte]
  simp only [decodeVals, reference_chars, List.zip_cons_cons, List.zip_nil_right,
    List.map_cons, List.map_nil, List.tail_cons, stepBy2, List.sum_cons, List.sum_nil,
    LONG_MULT, LAT_MULT, LONG_F, LONG_SQ, LONG_SSQ, LONG_ESQ, LONG_SESQ, LAT_F, LAT_SQ,
    LAT_SSQ, LAT_ESQ, LAT_SESQ, LONG_OFFSET, LAT_OFFSET]
  norm_num [hup2, hup3, show 'A'.toNat = 65 from rfl, show '0'.toNat = 48 from rfl]
  constructor <;> ring

theorem decode8 (c0 c1 c2 c3 c4 c5 c6 c7 : Char) (h0 : is_alpha c0 = true)
    (h1 : is_alpha c1 = true) (h2 : is_digit c2 = true) (h3 : is_digit c3 = true)
    (h4 : is_alpha c4 = true) (h5 : is_alpha c5 = true) (h6 : is_digit c6 = true)
    (h7 : is_digit c7 = true) :
    grid_to_longlat (String.mk [c0, c1, c2, c3, c4, c5, c6, c7]) =
      .ok (((c0.toUpper.toNat - 65 : ℕ) : ℚ) * 20 + ((c2.toNat - 48 : ℕ) : ℚ) * 2
             + ((c4.toUpper.toNat - 65 : ℕ) : ℚ) * (1 / 12)
             + ((c6.toNat - 48 : ℕ) : ℚ) * (1 / 120) + 1 / 240 - 180,
           ((c1.toUpper.toNat - 65 : ℕ) : ℚ) * 10 + ((c3.toNat - 48 : ℕ) : ℚ) * 1
             + ((c5.toUpper.toNat - 65 : ℕ) : ℚ) * (1 / 24)
             + ((c7.toNat - 48 : ℕ) : ℚ) * (1 / 240) + 1 / 480 - 90) := by
  have ha0 := isAlpha_iff.mp (by simpa [is_alpha] using h0)
  have ha1 := isAlpha_iff.mp (by simpa [is_alpha] using h1)
  have hd2 := isDigit_iff.mp (by simpa [is_digit] using h2)
  have hd3 := isDigit_iff.mp (by simpa [is_digit] using h3)
  have ha4 := isAlpha_iff.mp (by simpa [is_alpha] using h4)
  have ha5 := isAlpha_iff.mp (by simpa [is_alpha] using h5)
  have hd6 := isDigit_iff.mp (by simpa [is_digit] using h6)
  have hd7 := isDigit_iff.mp (by simpa [is_digit] using h7)
  have s0 : c0.utf8Size = 1 := utf8Size_eq_one (by omega)
  have s1 : c1.utf8Size = 1 := utf8Size_eq_one (by omega)
  have s2 : c2.utf8Size = 1 := utf8Size_eq_one (by omega)
  have s3 : c3.utf8Size = 1 := utf8Size_eq_one (by omega)
  have s4 : c4.utf8Size = 1 := utf8Size_eq_one (by omega)
  have s5 : c5.utf8Size = 1 := utf8Size_eq_one (by omega)
  have s6 : c6.utf8Size = 1 := utf8Size_eq_one (by omega)
  have s7 : c7.utf8Size = 1 := utf8Size_eq_one (by omega)
  have hbl : byteLen [c0, c1, c2, c3, c4, c5, c6, c7] = 8 := by
    simp [byteLen, s0, s1, s2, s3, s4, s5, s6, s7]
  have hup2 : c2.toUpper.toNat = c2.toNat := by rw [toUpper_toNat, if_neg]; omega
  have hup3 : c3.toUpper.toNat = c3.toNat := by rw [toUpper_toNat, if_neg]; omega
  have hup6 : c6.toUpper.toNat = c6.toNat := by rw [toUpper_toNat, if_neg]; omega
  have hup7 : c7.toUpper.toNat = c7.toNat := by rw [toUpper_toNat, if_neg]; omega
  have hvalid : gridIsValid [c0, c1, c2, c3, c4, c5, c6, c7] = true := by
    simp [gridIsValid, pattern, hbl, h0, h1, h2, h3, h4, h5, h6, h7]
  rw [grid_to_longlat]
  rw [show (String.mk [c0, c1, c2, c3, c4, c5, c6, c7]).data
      = [c0, c1, c2, c3, c4, c5, c6, c7] from rfl]
  rw [hvalid, hbl]
  simp only [Bool.not_true, Bool.false_eq_true, if_false, reduceIte]
  simp only [decodeVals, reference_chars, List.zip_cons_cons, List.zip_nil_right,
    List.map_cons, List.map_nil, List.tail_cons, stepBy2, List.sum_cons, List.sum_nil,
    LONG_MULT, LAT_MULT, LONG_F, LONG_SQ, LONG_SSQ, LONG_ESQ, LONG_SESQ, LAT_F, LAT_SQ,
    LAT_SSQ, LAT_ESQ, LAT_SESQ, LONG_OFFSET, LAT_OFFSET]
  norm_num [hup2, hup3, hup6, hup7, show 'A'.toNat = 65 from rfl,
    show '0'.toNat = 48 from rfl]
  constructor <;> ring

theorem decode10 (c0 c1 c2 c3 c4 c5 c6 c7 c8 c9 : Char) (h0 : is_alpha c0 = true)
    (h1 : is_alpha c1 = true) (h2 : is_digit c2 = true) (h3 : is_digit c3 = true)
    (h4 : is_alpha c4 = true) (h5 : is_alpha c5 = true) (h6 : is_digit c6 = true)
    (h7 : is_digit c7 = true) (h8 : is_alpha c8 = true) (h9 : is_alpha c9 = true) :
    grid_to_longlat (String.mk [c0, c1, c2, c3, c4, c5, c6, c7, c8, c9]) =
      .ok (((c0.toUpper.toNat - 65 : ℕ) : ℚ) * 20 + ((c2.toNat - 48 : ℕ) : ℚ) * 2
             + ((c4.toUpper.toNat - 65 : ℕ) : ℚ) * (1 / 12)
             + ((c6.toNat - 48 : ℕ) : ℚ) * (1 / 120)
             + ((c8.toUpper.toNat - 65 : ℕ) : ℚ) * (1 / 2880) + 1 / 5760 - 180,
           ((c1.toUpper.toNat - 65 : ℕ) : ℚ) * 10 + ((c3.toNat - 48 : ℕ) : ℚ) * 1
             + ((c5.toUpper.toNat - 65 : ℕ) : ℚ) * (1 / 24)
             + ((c7.toNat - 48 : ℕ) : ℚ) * (1 / 240)
             + ((c9.toUpper.toNat - 65 : ℕ) : ℚ) * (1 / 5760) + 1 / 11520 - 90) := by
  have ha0 := isAlpha_iff.mp (by simpa [is_alpha] using h0)
  have ha1 := isAlpha_iff.mp (by simpa [is_alpha] using h1)
  have hd2 := isDigit_iff.mp (by simpa [is_digit] using h2)
  have hd3 := isDigit_iff.mp (by simpa [is_digit] using h3)
  have ha4 := isAlpha_iff.mp (by simpa [is_alpha] using h4)
  have ha5 := isAlpha_iff.mp (by simpa [is_alpha] using h5)
  have hd6 := isDigit_iff.mp (by simpa [is_digit] using h6)
  have hd7 := isDigit_iff.mp (by simpa [is_digit] using h7)
  have ha8 := isAlpha_iff.mp (by simpa [is_alpha] using h8)
  have ha9 := isAlpha_iff.mp (by simpa [is_alpha] using h9)
  have s0 : c0.utf8Size = 1 := utf8Size_eq_one (by omega)
  have s1 : c1.utf8Size = 1 := utf8Size_eq_one (by omega)
  have s2 : c2.utf8Size = 1 := utf8Size_eq_one (by omega)
  have s3 : c3.utf8Size = 1 := utf8Size_eq_one (by omega)
  have s4 : c4.utf8Size = 1 := utf8Size_eq_one (by omega)
  have s5 : c5.utf8Size = 1 := utf8Size_eq_one (by omega)
  have s6 : c6.utf8Size = 1 := utf8Size_eq_one (by omega)
  have s7 : c7.utf8Size = 1 := utf8Size_eq_one (by omega)
  have s8 : c8.utf8Size = 1 := utf8Size_eq_one (by omega)
  have s9 : c9.utf8Size = 1 := utf8Size_eq_one (by omega)
  have hbl : byteLen [c0, c1, c2, c3, c4, c5, c6, c7, c8, c9] = 10 := by
    simp [byteLen, s0, s1, s2, s3, s4, s5, s6, s7, s8, s9]
  have hup2 : c2.toUpper.toNat = c2.toNat := by rw [toUpper_toNat, if_neg]; omega
  have hup3 : c3.toUpper.toNat = c3.toNat := by rw [toUpper_toNat, if_neg]; omega
  have hup6 : c6.toUpper.toNat = c6.toNat := by rw [toUpper_toNat, if_neg]; omega
  have hup7 : c7.toUpper.toNat = c7.toNat := by rw [toUpper_toNat, if_neg]; omega
  have hvalid : gridIsValid [c0, c1, c2, c3, c4, c5, c6, c7, c8, c9] = true := by
    simp [gridIsValid, pattern, hbl, h0, h1, h2, h3, h4, h5, h6, h7, h8, h9]
  rw [grid_to_longlat]
  rw [show (String.mk [c0, c1, c2, c3, c4, c5, c6, c7, c8, c9]).data
      = [c0, c1, c2, c3, c4, c5, c6, c7, c8, c9] from rfl]
  rw [hvalid, hbl]
  simp only [Bool.not_true, Bool.false_eq_true, if_false, reduceIte]
  simp only [decodeVals, reference_chars, List.zip_cons_cons, List.zip_nil_right,
    List.map_cons, List.map_nil, List.tail_cons, stepBy2, List.sum_cons, List.sum_nil,
    LONG_MULT, LAT_MULT, LONG_F, LONG_SQ, LONG_SSQ, LONG_ESQ, LONG_SESQ, LAT_F, LAT_SQ,
    LAT_SSQ, LAT_ESQ, LAT_SESQ, LONG_OFFSET, LAT_OFFSET]
  norm_num [hup2, hup3, hup6, hup7, show 'A'.toNat = 65 from rfl,
    show '0'.toNat = 48 from rfl]
  constructor <;> ring

/-! Digit extraction lemmas: the encoder tier values of a nonnegative
coordinate `x`, measured in units of the finest tier width `w`, are the
mixed-radix digits of `⌊x / w⌋₊`. -/

theorem digitsA4 (x w : ℚ) (hw : 0 < w) (hx : 0 ≤ x) (hub : x ≤ 180 * w) :
    f64_as_u32 (x / (10 * w)) = ⌊x / w⌋₊ / 10 ∧
    f64_as_u32 (fmod x (10 * w) / w) = ⌊x / w⌋₊ % 10 ∧
    ⌊x / w⌋₊ ≤ 180 := by
  have hK : ⌊x / w⌋₊ ≤ 180 := by
    have h1 : x / w ≤ ((180 : ℕ) : ℚ) := by
      rw [div_le_iff hw]
      push_cast
      linarith
    calc ⌊x / w⌋₊ ≤ ⌊((180 : ℕ) : ℚ)⌋₊ := Nat.floor_le_floor h1
      _ = 180 := Nat.floor_natCast 180
  have h10 : ⌊x / ((10 : ℕ) * w : ℚ)⌋₊ = ⌊x / w⌋₊ / 10 :=
    natFloor_div_step x w 10 hw.ne' (by norm_num)
  refine ⟨?_, ?_, hK⟩
  · have := head_digit x (((10 : ℕ) : ℚ) * w) hx (by positivity) (by rw [h10]; omega)
    rw [show ((10 : ℕ) : ℚ) = (10 : ℚ) by norm_num] at this h10
    rw [this, h10]
  · have := fmod_digit x w 10 hx hw (by norm_num) (by norm_num)
    rw [show ((10 : ℕ) : ℚ) = (10 : ℚ) by norm_num] at this
    exact this

theorem digitsA6 (x w : ℚ) (hw : 0 < w) (hx : 0 ≤ x) (hub : x ≤ 4320 * w) :
    f64_as_u32 (x / (240 * w)) = ⌊x / w⌋₊ / 240 ∧
    f64_as_u32 (fmod x (240 * w) / (24 * w)) = ⌊x / w⌋₊ / 24 % 10 ∧
    f64_as_u32 (fmod x (24 * w) / w) = ⌊x / w⌋₊ % 24 ∧
    ⌊x / w⌋₊ ≤ 4320 := by
  have hK : ⌊x / w⌋₊ ≤ 4320 := by
    have h1 : x / w ≤ ((4320 : ℕ) : ℚ) := by
      rw [div_le_iff hw]
      push_cast
      linarith
    calc ⌊x / w⌋₊ ≤ ⌊((4320 : ℕ) : ℚ)⌋₊ := Nat.floor_le_floor h1
      _ = 4320 := Nat.floor_natCast 4320
  have h240 : ⌊x / ((240 : ℕ) * w : ℚ)⌋₊ = ⌊x / w⌋₊ / 240 :=
    natFloor_div_step x w 240 hw.ne' (by norm_num)
  have h24 : ⌊x / ((24 : ℕ) * w : ℚ)⌋₊ = ⌊x / w⌋₊ / 24 :=
    natFloor_div_step x w 24 hw.ne' (by norm_num)
  refine ⟨?_, ?_, ?_, hK⟩
  · have := head_digit x (((240 : ℕ) : ℚ) * w) hx (by positivity) (by rw [h240]; omega)
    rw [show ((240 : ℕ) : ℚ) = (240 : ℚ) by norm_num] at this h240
    rw [this, h240]
  · have := fmod_digit x (((24 : ℕ) : ℚ) * w) 10 hx (by positivity) (by norm_num) (by norm_num)
    rw [show ((10 : ℕ) : ℚ) * (((24 : ℕ) : ℚ) * w) = (240 : ℚ) * w by push_cast; ring,
      show ((24 : ℕ) : ℚ) * w = (24 : ℚ) * w by norm_num] at this
    rw [this]
    rw [show x / ((24 : ℚ) * w) = x / (((24 : ℕ) : ℚ) * w) by norm_num, h24]
  · have := fmod_digit x w 24 hx hw (by norm_num) (by norm_num)
    rw [show ((24 : ℕ) : ℚ) = (24 : ℚ) by norm_num] at this
    exact this

theorem digitsA8 (x w : ℚ) (hw : 0 < w) (hx : 0 ≤ x) (hub : x ≤ 43200 * w) :
    f64_as_u32 (x / (2400 * w)) = ⌊x / w⌋₊ / 2400 ∧
    f64_as_u32 (fmod x (2400 * w) / (240 * w)) = ⌊x / w⌋₊ / 240 % 10 ∧
    f64_as_u32 (fmod x (240 * w) / (10 * w)) = ⌊x / w⌋₊ / 10 % 24 ∧
    f64_as_u32 (fmod x (10 * w) / w) = ⌊x / w⌋₊ % 10 ∧
    ⌊x / w⌋₊ ≤ 43200 := by
  have hK : ⌊x / w⌋₊ ≤ 43200 := by
    have h1 : x / w ≤ ((43200 : ℕ) : ℚ) := by
      rw [div_le_iff hw]
      push_cast
      linarith
    calc ⌊x / w⌋₊ ≤ ⌊((43200 : ℕ) : ℚ)⌋₊ := Nat.floor_le_floor h1
      _ = 43200 := Nat.floor_natCast 43200
  have h2400 : ⌊x / ((2400 : ℕ) * w : ℚ)⌋₊ = ⌊x / w⌋₊ / 2400 :=
    natFloor_div_step x w 2400 hw.ne' (by norm_num)
  have h240 : ⌊x / ((240 : ℕ) * w : ℚ)⌋₊ = ⌊x / w⌋₊ / 240 :=
    natFloor_div_step x w 240 hw.ne' (by norm_num)
  have h10 : ⌊x / ((10 : ℕ) * w : ℚ)⌋₊ = ⌊x / w⌋₊ / 10 :=
    natFloor_div_step x w 10 hw.ne' (by norm_num)
  refine ⟨?_, ?_, ?_, ?_, hK⟩
  · have := head_digit x (((2400 : ℕ) : ℚ) * w) hx (by positivity) (by rw [h2400]; omega)
    rw [show ((2400 : ℕ) : ℚ) = (2400 : ℚ) by norm_num] at this h2400
    rw [this, h2400]
  · have := fmod_digit x (((240 : ℕ) : ℚ) * w) 10 hx (by positivity) (by norm_num)
      (by norm_num)
    rw [show ((10 : ℕ) : ℚ) * (((240 : ℕ) : ℚ) * w) = (2400 : ℚ) * w by push_cast; ring,
      show ((240 : ℕ) : ℚ) * w = (240 : ℚ) * w by norm_num] at this
    rw [this]
    rw [show x / ((240 : ℚ) * w) = x / (((240 : ℕ) : ℚ) * w) by norm_num, h240]
  · have := fmod_digit x (((10 : ℕ) : ℚ) * w) 24 hx (by positivity) (by norm_num)
      (by norm_num)
    rw [show ((24 : ℕ) : ℚ) * (((10 : ℕ) : ℚ) * w) = (240 : ℚ) * w by push_cast; ring,
      show ((10 : ℕ) : ℚ) * w = (10 : ℚ) * w by norm_num] at this
    rw [this]
    rw [show x / ((10 : ℚ) * w) = x / (((10 : ℕ) : ℚ) * w) by norm_num, h10]
  · have := fmod_digit x w 10 hx hw (by norm_num) (by norm_num)
    rw [show ((10 : ℕ) : ℚ) = (10 : ℚ) by norm_num] at this
    exact this

theorem digitsA10 (x w : ℚ) (hw : 0 < w) (hx : 0 ≤ x) (hub : x ≤ 1036800 * w) :
    f64_as_u32 (x / (57600 * w)) = ⌊x / w⌋₊ / 57600 ∧
    f64_as_u32 (fmod x (57600 * w) / (5760 * w)) = ⌊x / w⌋₊ / 5760 % 10 ∧
    f64_as_u32 (fmod x (5760 * w) / (240 * w)) = ⌊x / w⌋₊ / 240 % 24 ∧
    f64_as_u32 (fmod x (240 * w) / (24 * w)) = ⌊x / w⌋₊ / 24 % 10 ∧
    f64_as_u32 (fmod x (24 * w) / w) = ⌊x / w⌋₊ % 24 ∧
    ⌊x / w⌋₊ ≤ 1036800 := by
  have hK : ⌊x / w⌋₊ ≤ 1036800 := by
    have h1 : x / w ≤ ((1036800 : ℕ) : ℚ) := by
      rw [div_le_iff hw]
      push_cast
      linarith
    calc ⌊x / w⌋₊ ≤ ⌊((1036800 : ℕ) : ℚ)⌋₊ := Nat.floor_le_floor h1
      _ = 1036800 := Nat.floor_natCast 1036800
  have h57600 : ⌊x / ((57600 : ℕ) * w : ℚ)⌋₊ = ⌊x / w⌋₊ / 57600 :=
    natFloor_div_step x w 57600 hw.ne' (by norm_num)
  have h5760 : ⌊x / ((5760 : ℕ) * w : ℚ)⌋₊ = ⌊x / w⌋₊ / 5760 :=
    natFloor_div_step x w 5760 hw.ne' (by norm_num)
  have h240 : ⌊x / ((240 : ℕ) * w : ℚ)⌋₊ = ⌊x / w⌋₊ / 240 :=
    natFloor_div_step x w 240 hw.ne' (by norm_num)
  have h24 : ⌊x / ((24 : ℕ) * w : ℚ)⌋₊ = ⌊x / w⌋₊ / 24 :=
    natFloor_div_step x w 24 hw.ne' (by norm_num)
  refine ⟨?_, ?_, ?_, ?_, ?_, hK⟩
  · have := head_digit x (((57600 : ℕ) : ℚ) * w) hx (by positivity) (by rw [h57600]; omega)
    rw [show ((57600 : ℕ) : ℚ) = (57600 : ℚ) by norm_num] at this h57600
    rw [this, h57600]
  · have := fmod_digit x (((5760 : ℕ) : ℚ) * w) 10 hx (by positivity) (by norm_num)
      (by norm_num)
    rw [show ((10 : ℕ) : ℚ) * (((5760 : ℕ) : ℚ) * w) = (57600 : ℚ) * w by push_cast; ring,
      show ((5760 : ℕ) : ℚ) * w = (5760 : ℚ) * w by norm_num] at this
    rw [this]
    rw [show x / ((5760 : ℚ) * w) = x / (((5760 : ℕ) : ℚ) * w) by norm_num, h5760]
  · have := fmod_digit x (((240 : ℕ) : ℚ) * w) 24 hx (by positivity) (by norm_num)
      (by norm_num)
    rw [show ((24 : ℕ) : ℚ) * (((240 : ℕ) : ℚ) * w) = (5760 : ℚ) * w by push_cast; ring,
      show ((240 : ℕ) : ℚ) * w = (240 : ℚ) * w by norm_num] at this
    rw [this]
    rw [show x / ((240 : ℚ) * w) = x / (((240 : ℕ) : ℚ) * w) by norm_num, h240]
  · have := fmod_digit x (((24 : ℕ) : ℚ) * w) 10 hx (by positivity) (by norm_num)
      (by norm_num)
    rw [show ((10 : ℕ) : ℚ) * (((24 : ℕ) : ℚ) * w) = (240 : ℚ) * w by push_cast; ring,
      show ((24 : ℕ) : ℚ) * w = (24 : ℚ) * w by norm_num] at this
    rw [this]
    rw [show x / ((24 : ℚ) * w) = x / (((24 : ℕ) : ℚ) * w) by norm_num, h24]
  · have := fmod_digit x w 24 hx hw (by norm_num) (by norm_num)
    rw [show ((24 : ℕ) : ℚ) = (24 : ℚ) by norm_num] at this
    exact this

theorem charoff_eq (b : Char) (n : ℕ) (h : b.toNat + n < 55296) :
    charoff b n = some (Char.ofNat (b.toNat + n)) := by
  unfold charoff
  rw [if_pos (Or.inl h)]

theorem charoff_A (n : ℕ) (h : 65 + n < 55296) : charoff 'A' n = some (Char.ofNat (65 + n)) :=
  charoff_eq 'A' n h

theorem charoff_a (n : ℕ) (h : 97 + n < 55296) : charoff 'a' n = some (Char.ofNat (97 + n)) :=
  charoff_eq 'a' n h

theorem charoff_0 (n : ℕ) (h : 48 + n < 55296) : charoff '0' n = some (Char.ofNat (48 + n)) :=
  charoff_eq '0' n h

theorem base_chars_list :
    "AA00aa00AA".data = ['A', 'A', '0', '0', 'a', 'a', '0', '0', 'A', 'A'] := rfl

/-! Symbolic evaluation of the encoder at each accepted precision: the output
is the string of mixed-radix digit characters of the shifted coordinates. -/

theorem encode4_eq (long lat : ℚ) (h1 : -180 ≤ long) (h2 : long ≤ 180)
    (h3 : -90 ≤ lat) (h4 : lat ≤ 90) :
    longlat_to_grid long lat 4 = .ok (String.mk
      [Char.ofNat (65 + ⌊(long + 180) / 2⌋₊ / 10),
       Char.ofNat (65 + ⌊lat + 90⌋₊ / 10),
       Char.ofNat (48 + ⌊(long + 180) / 2⌋₊ % 10),
       Char.ofNat (48 + ⌊lat + 90⌋₊ % 10)])
      ∧ ⌊(long + 180) / 2⌋₊ ≤ 180 ∧ ⌊lat + 90⌋₊ ≤ 180 := by
  obtain ⟨e0, e1, hKx⟩ := digitsA4 (long + 180) 2 (by norm_num) (by linarith) (by linarith)
  obtain ⟨f0, f1, hKy⟩ := digitsA4 (lat + 90) 1 (by norm_num) (by linarith) (by linarith)
  rw [show (10 : ℚ) * 2 = 20 from by norm_num] at e0 e1
  rw [show (10 : ℚ) * 1 = 10 from by norm_num] at f0 f1
  rw [show (lat + 90) / (1 : ℚ) = lat + 90 from div_one _] at f0 f1 hKy
  refine ⟨?_, hKx, hKy⟩
  rw [longlat_to_grid]
  rw [if_pos (show (4 : ℕ) = 4 ∨ (4 : ℕ) = 6 ∨ (4 : ℕ) = 8 ∨ (4 : ℕ) = 10 from by norm_num)]
  rw [if_neg (by push_neg; exact ⟨⟨h1, h2⟩, ⟨h3, h4⟩⟩)]
  simp only [LONG_OFFSET, LAT_OFFSET, LONG_F, LAT_F, LONG_SQ, LAT_SQ, LONG_SSQ, LAT_SSQ,
    LONG_ESQ, LAT_ESQ, LONG_SESQ, LAT_SESQ, base_chars_list]
  simp only [List.take_succ_cons, List.take_zero, List.zip_cons_cons, List.zip_nil_right]
  simp only [List.mapM_cons, List.mapM_nil]
  rw [e0, f0, e1, f1]
  rw [charoff_A _ (by omega), charoff_A _ (by omega), charoff_0 _ (by omega),
    charoff_0 _ (by omega)]
  simp

theorem encode6_eq (long lat : ℚ) (h1 : -180 ≤ long) (h2 : long ≤ 180)
    (h3 : -90 ≤ lat) (h4 : lat ≤ 90) :
    longlat_to_grid long lat 6 = .ok (String.mk
      [Char.ofNat (65 + ⌊(long + 180) * 12⌋₊ / 240),
       Char.ofNat (65 + ⌊(lat + 90) * 24⌋₊ / 240),
       Char.ofNat (48 + ⌊(long + 180) * 12⌋₊ / 24 % 10),
       Char.ofNat (48 + ⌊(lat + 90) * 24⌋₊ / 24 % 10),
       Char.ofNat (97 + ⌊(long + 180) * 12⌋₊ % 24),
       Char.ofNat (97 + ⌊(lat + 90) * 24⌋₊ % 24)])
      ∧ ⌊(long + 180) * 12⌋₊ ≤ 4320 ∧ ⌊(lat + 90) * 24⌋₊ ≤ 4320 := by
  obtain ⟨e0, e1, e2, hKx⟩ := digitsA6 (long + 180) (5 / 60) (by norm_num) (by linarith)
    (by norm_num; linarith)
  obtain ⟨f0, f1, f2, hKy⟩ := digitsA6 (lat + 90) (2.5 / 60) (by norm_num) (by linarith)
    (by norm_num; linarith)
  rw [show (240 : ℚ) * (5 / 60) = 20 from by norm_num] at e0 e1
  rw [show (24 : ℚ) * (5 / 60) = 2 from by norm_num] at e1 e2
  rw [show (long + 180) / ((5 : ℚ) / 60) = (long + 180) * 12 from by
    rw [div_eq_mul_inv]; norm_num] at e0 e1 e2 hKx
  rw [show (240 : ℚ) * (2.5 / 60) = 10 from by norm_num] at f0 f1
  rw [show (24 : ℚ) * (2.5 / 60) = 1 from by norm_num] at f1 f2
  rw [show (lat + 90) / ((2.5 : ℚ) / 60) = (lat + 90) * 24 from by
    rw [div_eq_mul_inv]; norm_num] at f0 f1 f2 hKy
  refine ⟨?_, hKx, hKy⟩
  rw [longlat_to_grid]
  rw [if_pos (show (6 : ℕ) = 4 ∨ (6 : ℕ) = 6 ∨ (6 : ℕ) = 8 ∨ (6 : ℕ) = 10 from by norm_num)]
  rw [if_neg (by push_neg; exact ⟨⟨h1, h2⟩, ⟨h3, h4⟩⟩)]
  simp only [LONG_OFFSET, LAT_OFFSET, LONG_F, LAT_F, LONG_SQ, LAT_SQ, LONG_SSQ, LAT_SSQ,
    LONG_ESQ, LAT_ESQ, LONG_SESQ, LAT_SESQ, base_chars_list]
  simp only [List.take_succ_cons, List.take_zero, List.zip_cons_cons, List.zip_nil_right]
  simp only [List.mapM_cons, List.mapM_nil]
  rw [e0, f0, e1, f1, e2, f2]
  rw [charoff_A _ (by omega), charoff_A _ (by omega), charoff_0 _ (by omega),
    charoff_0 _ (by omega), charoff_a _ (by omega), charoff_a _ (by omega)]
  simp

theorem encode8_eq (long lat : ℚ) (h1 : -180 ≤ long) (h2 : long ≤ 180)
    (h3 : -90 ≤ lat) (h4 : lat ≤ 90) :
    longlat_to_grid long lat 8 = .ok (String.mk
      [Char.ofNat (65 + ⌊(long + 180) * 120⌋₊ / 2400),
       Char.ofNat (65 + ⌊(lat + 90) * 240⌋₊ / 2400),
       Char.ofNat (48 + ⌊(long + 180) * 120⌋₊ / 240 % 10),
       Char.ofNat (48 + ⌊(lat + 90) * 240⌋₊ / 240 % 10),
       Char.ofNat (97 + ⌊(long + 180) * 120⌋₊ / 10 % 24),
       Char.ofNat (97 + ⌊(lat + 90) * 240⌋₊ / 10 % 24),
       Char.ofNat (48 + ⌊(long + 180) * 120⌋₊ % 10),
       Char.ofNat (48 + ⌊(lat + 90) * 240⌋₊ % 10)])
      ∧ ⌊(long + 180) * 120⌋₊ ≤ 43200 ∧ ⌊(lat + 90) * 240⌋₊ ≤ 43200 := by
  obtain ⟨e0, e1, e2, e3, hKx⟩ := digitsA8 (long + 180) (30 / 60 / 60) (by norm_num)
    (by linarith) (by norm_num; linarith)
  obtain ⟨f0, f1, f2, f3, hKy⟩ := digitsA8 (lat + 90) (15 / 60 / 60) (by norm_num)
    (by linarith) (by norm_num; linarith)
  rw [show (2400 : ℚ) * (30 / 60 / 60) = 20 from by norm_num] at e0 e1
  rw [show (240 : ℚ) * (30 / 60 / 60) = 2 from by norm_num] at e1 e2
  rw [show (10 : ℚ) * (30 / 60 / 60) = 5 / 60 from by norm_num] at e2 e3
  rw [show (long + 180) / ((30 : ℚ) / 60 / 60) = (long + 180) * 120 from by
    rw [div_eq_mul_inv]; norm_num] at e0 e1 e2 e3 hKx
  rw [show (2400 : ℚ) * (15 / 60 / 60) = 10 from by norm_num] at f0 f1
  rw [show (240 : ℚ) * (15 / 60 / 60) = 1 from by norm_num] at f1 f2
  rw [show (10 : ℚ) * (15 / 60 / 60) = 2.5 / 60 from by norm_num] at f2 f3
  rw [show (lat + 90) / ((15 : ℚ) / 60 / 60) = (lat + 90) * 240 from by
    rw [div_eq_mul_inv]; norm_num] at f0 f1 f2 f3 hKy
  refine ⟨?_, hKx, hKy⟩
  rw [longlat_to_grid]
  rw [if_pos (show (8 : ℕ) = 4 ∨ (8 : ℕ) = 6 ∨ (8 : ℕ) = 8 ∨ (8 : ℕ) = 10 from by norm_num)]
  rw [if_neg (by push_neg; exact ⟨⟨h1, h2⟩, ⟨h3, h4⟩⟩)]
  simp only [LONG_OFFSET, LAT_OFFSET, LONG_F, LAT_F, LONG_SQ, LAT_SQ, LONG_SSQ, LAT_SSQ,
    LONG_ESQ, LAT_ESQ, LONG_SESQ, LAT_SESQ, base_chars_list]
  simp only [List.take_succ_cons, List.take_zero, List.zip_cons_cons, List.zip_nil_right]
  simp only [List.mapM_cons, List.mapM_nil]
  rw [e0, f0, e1, f1, e2, f2, e3, f3]
  rw [charoff_A _ (by omega), charoff_A _ (by omega), charoff_0 _ (by omega),
    charoff_0 _ (by omega), charoff_a _ (by omega), charoff_a _ (by omega),
    charoff_0 _ (by omega), charoff_0 _ (by omega)]
  simp

theorem encode10_eq (long lat : ℚ) (h1 : -180 ≤ long) (h2 : long ≤ 180)
    (h3 : -90 ≤ lat) (h4 : lat ≤ 90) :
    longlat_to_grid long lat 10 = .ok (String.mk
      [Char.ofNat (65 + ⌊(long + 180) * 2880⌋₊ / 57600),
       Char.ofNat (65 + ⌊(lat + 90) * 5760⌋₊ / 57600),
       Char.ofNat (48 + ⌊(long + 180) * 2880⌋₊ / 5760 % 10),
       Char.ofNat (48 + ⌊(lat + 90) * 5760⌋₊ / 5760 % 10),
       Char.ofNat (97 + ⌊(long + 180) * 2880⌋₊ / 240 % 24),
       Char.ofNat (97 + ⌊(lat + 90) * 5760⌋₊ / 240 % 24),
       Char.ofNat (48 + ⌊(long + 180) * 2880⌋₊ / 24 % 10),
       Char.ofNat (48 + ⌊(lat + 90) * 5760⌋₊ / 24 % 10),
       Char.ofNat (65 + ⌊(long + 180) * 2880⌋₊ % 24),
       Char.ofNat (65 + ⌊(lat + 90) * 5760⌋₊ % 24)])
      ∧ ⌊(long + 180) * 2880⌋₊ ≤ 1036800 ∧ ⌊(lat + 90) * 5760⌋₊ ≤ 1036800 := by
  obtain ⟨e0, e1, e2, e3, e4, hKx⟩ := digitsA10 (long + 180) (1.25 / 60 / 60) (by norm_num)
    (by linarith) (by norm_num; linarith)
  obtain ⟨f0, f1, f2, f3, f4, hKy⟩ := digitsA10 (lat + 90) (0.625 / 60 / 60) (by norm_num)
    (by linarith) (by norm_num; linarith)
  rw [show (57600 : ℚ) * (1.25 / 60 / 60) = 20 from by norm_num] at e0 e1
  rw [show (5760 : ℚ) * (1.25 / 60 / 60) = 2 from by norm_num] at e1 e2
  rw [show (240 : ℚ) * (1.25 / 60 / 60) = 5 / 60 from by norm_num] at e2 e3
  rw [show (24 : ℚ) * (1.25 / 60 / 60) = 30 / 60 / 60 from by norm_num] at e3 e4
  rw [show (long + 180) / ((1.25 : ℚ) / 60 / 60) = (long + 180) * 2880 from by
    rw [div_eq_mul_inv]; norm_num] at e0 e1 e2 e3 e4 hKx
  rw [show (57600 : ℚ) * (0.625 / 60 / 60) = 10 from by norm_num] at f0 f1
  rw [show (5760 : ℚ) * (0.625 / 60 / 60) = 1 from by norm_num] at f1 f2
  rw [show (240 : ℚ) * (0.625 / 60 / 60) = 2.5 / 60 from by norm_num] at f2 f3
  rw [show (24 : ℚ) * (0.625 / 60 / 60) = 15 / 60 / 60 from by norm_num] at f3 f4
  rw [show (lat + 90) / ((0.625 : ℚ) / 60 / 60) = (lat + 90) * 5760 from by
    rw [div_eq_mul_inv]; norm_num] at f0 f1 f2 f3 f4 hKy
  refine ⟨?_, hKx, hKy⟩
  rw [longlat_to_grid]
  rw [if_pos (show (10 : ℕ) = 4 ∨ (10 : ℕ) = 6 ∨ (10 : ℕ) = 8 ∨ (10 : ℕ) = 10 from by
    norm_num)]
  rw [if_neg (by push_neg; exact ⟨⟨h1, h2⟩, ⟨h3, h4⟩⟩)]
  simp only [LONG_OFFSET, LAT_OFFSET, LONG_F, LAT_F, LONG_SQ, LAT_SQ, LONG_SSQ, LAT_SSQ,
    LONG_ESQ, LAT_ESQ, LONG_SESQ, LAT_SESQ, base_chars_list]
  simp only [List.take_succ_cons, List.take_zero, List.zip_cons_cons, List.zip_nil_right]
  simp only [List.mapM_cons, List.mapM_nil]
  rw [e0, f0, e1, f1, e2, f2, e3, f3, e4, f4]
  rw [charoff_A _ (by omega), charoff_A _ (by omega), charoff_0 _ (by omega),
    charoff_0 _ (by omega), charoff_a _ (by omega), charoff_a _ (by omega),
    charoff_0 _ (by omega), charoff_0 _ (by omega), charoff_A _ (by omega),
    charoff_A _ (by omega)]
  simp

theorem natFloor_mul_le (x w : ℚ) (hx : 0 ≤ x) (hw : 0 < w) :
    ((⌊x / w⌋₊ : ℕ) : ℚ) * w ≤ x := by
  have := Nat.floor_le (div_nonneg hx hw.le)
  calc ((⌊x / w⌋₊ : ℕ) : ℚ) * w ≤ (x / w) * w := by
        exact mul_le_mul_of_nonneg_right this hw.le
    _ = x := by field_simp

theorem lt_natFloor_mul (x w : ℚ) (hw : 0 < w) :
    x < (((⌊x / w⌋₊ : ℕ) : ℚ) + 1) * w := by
  have := Nat.lt_floor_add_one (x / w)
  calc x = (x / w) * w := by field_simp
    _ < (((⌊x / w⌋₊ : ℕ) : ℚ) + 1) * w := by
        exact mul_lt_mul_of_pos_right this hw

/-! Round-trip helpers: encoding an in-range coordinate pair succeeds, the
output has the canonical character shape, decoding it succeeds, and the
decoded point is within half the finest tier width of the input. -/

theorem roundA4 (long lat : ℚ) (h1 : -180 ≤ long) (h2 : long ≤ 180)
    (h3 : -90 ≤ lat) (h4 : lat ≤ 90) :
    ∃ cs : List Char, longlat_to_grid long lat 4 = .ok (String.mk cs) ∧
      cs.length = 4 ∧ ((cs.zip shapePattern).all fun p => p.2 p.1) = true ∧
      ∃ q, grid_to_longlat (String.mk cs) = .ok q ∧
        |q.1 - long| ≤ 1 ∧ |q.2 - lat| ≤ 1 / 2 := by
  obtain ⟨henc, hKx, hKy⟩ := encode4_eq long lat h1 h2 h3 h4
  have t0 : (Char.ofNat (65 + ⌊(long + 180) / 2⌋₊ / 10)).toNat = 65 + ⌊(long + 180) / 2⌋₊ / 10 :=
    toNat_ofNat_valid (by omega)
  have t1 : (Char.ofNat (65 + ⌊lat + 90⌋₊ / 10)).toNat = 65 + ⌊lat + 90⌋₊ / 10 :=
    toNat_ofNat_valid (by omega)
  have t2 : (Char.ofNat (48 + ⌊(long + 180) / 2⌋₊ % 10)).toNat = 48 + ⌊(long + 180) / 2⌋₊ % 10 :=
    toNat_ofNat_valid (by omega)
  have t3 : (Char.ofNat (48 + ⌊lat + 90⌋₊ % 10)).toNat = 48 + ⌊lat + 90⌋₊ % 10 :=
    toNat_ofNat_valid (by omega)
  have a0 : is_alpha (Char.ofNat (65 + ⌊(long + 180) / 2⌋₊ / 10)) = true := by
    simp only [is_alpha]
    rw [isAlpha_iff, t0]
    left
    omega
  have a1 : is_alpha (Char.ofNat (65 + ⌊lat + 90⌋₊ / 10)) = true := by
    simp only [is_alpha]
    rw [isAlpha_iff, t1]
    left
    omega
  have d2 : is_digit (Char.ofNat (48 + ⌊(long + 180) / 2⌋₊ % 10)) = true := by
    simp only [is_digit]
    rw [isDigit_iff, t2]
    omega
  have d3 : is_digit (Char.ofNat (48 + ⌊lat + 90⌋₊ % 10)) = true := by
    simp only [is_digit]
    rw [isDigit_iff, t3]
    omega
  have up0 : Char.isUpper (Char.ofNat (65 + ⌊(long + 180) / 2⌋₊ / 10)) = true := by
    rw [isUpper_iff, t0]
    omega
  have up1 : Char.isUpper (Char.ofNat (65 + ⌊lat + 90⌋₊ / 10)) = true := by
    rw [isUpper_iff, t1]
    omega
  refine ⟨_, henc, rfl, ?_, ?_⟩
  · simp [shapePattern, up0, up1, d2, d3]
  · have hdec := decode4 _ _ _ _ a0 a1 d2 d3
    have u0 : (Char.ofNat (65 + ⌊(long + 180) / 2⌋₊ / 10)).toUpper.toNat
        = 65 + ⌊(long + 180) / 2⌋₊ / 10 := by
      rw [toUpper_toNat, t0, if_neg (by omega)]
    have u1 : (Char.ofNat (65 + ⌊lat + 90⌋₊ / 10)).toUpper.toNat = 65 + ⌊lat + 90⌋₊ / 10 := by
      rw [toUpper_toNat, t1, if_neg (by omega)]
    rw [u0, u1, t2, t3] at hdec
    simp only [Nat.add_sub_cancel_left] at hdec
    refine ⟨_, hdec, ?_, ?_⟩
    · have hb1 := natFloor_mul_le (long + 180) 2 (by linarith) (by norm_num)
      have hb2 := lt_natFloor_mul (long + 180) 2 (by norm_num)
      have hsplit : (⌊(long + 180) / 2⌋₊ / 10 * 10 + ⌊(long + 180) / 2⌋₊ % 10 : ℕ)
          = ⌊(long + 180) / 2⌋₊ := by omega
      have hQ : ((⌊(long + 180) / 2⌋₊ / 10 : ℕ) : ℚ) * 10 + ((⌊(long + 180) / 2⌋₊ % 10 : ℕ) : ℚ)
          = ((⌊(long + 180) / 2⌋₊ : ℕ) : ℚ) := by exact_mod_cast congrArg (Nat.cast : ℕ → ℚ) hsplit
      rw [abs_le]
      constructor <;> nlinarith
    · have hb1 := natFloor_mul_le (lat + 90) 1 (by linarith) (by norm_num)
      have hb2 := lt_natFloor_mul (lat + 90) 1 (by norm_num)
      rw [show (lat + 90) / (1 : ℚ) = lat + 90 from div_one _] at hb1 hb2
      have hsplit : (⌊lat + 90⌋₊ / 10 * 10 + ⌊lat + 90⌋₊ % 10 : ℕ) = ⌊lat + 90⌋₊ := by omega
      have hQ : ((⌊lat + 90⌋₊ / 10 : ℕ) : ℚ) * 10 + ((⌊lat + 90⌋₊ % 10 : ℕ) : ℚ)
          = ((⌊lat + 90⌋₊ : ℕ) : ℚ) := by exact_mod_cast congrArg (Nat.cast : ℕ → ℚ) hsplit
      rw [abs_le]
      constructor <;> nlinarith

theorem roundA6 (long lat : ℚ) (h1 : -180 ≤ long) (h2 : long ≤ 180)
    (h3 : -90 ≤ lat) (h4 : lat ≤ 90) :
    ∃ cs : List Char, longlat_to_grid long lat 6 = .ok (String.mk cs) ∧
      cs.length = 6 ∧ ((cs.zip shapePattern).all fun p => p.2 p.1) = true ∧
      ∃ q, grid_to_longlat (String.mk cs) = .ok q ∧
        |q.1 - long| ≤ 1 / 24 ∧ |q.2 - lat| ≤ 1 / 48 := by
  obtain ⟨henc, hKx, hKy⟩ := encode6_eq long lat h1 h2 h3 h4
  have t0 : (Char.ofNat (65 + ⌊(long + 180) * 12⌋₊ / 240)).toNat
      = 65 + ⌊(long + 180) * 12⌋₊ / 240 := toNat_ofNat_valid (by omega)
  have t1 : (Char.ofNat (65 + ⌊(lat + 90) * 24⌋₊ / 240)).toNat
      = 65 + ⌊(lat + 90) * 24⌋₊ / 240 := toNat_ofNat_valid (by omega)
  have t2 : (Char.ofNat (48 + ⌊(long + 180) * 12⌋₊ / 24 % 10)).toNat
      = 48 + ⌊(long + 180) * 12⌋₊ / 24 % 10 := toNat_ofNat_valid (by omega)
  have t3 : (Char.ofNat (48 + ⌊(lat + 90) * 24⌋₊ / 24 % 10)).toNat
      = 48 + ⌊(lat + 90) * 24⌋₊ / 24 % 10 := toNat_ofNat_valid (by omega)
  have t4 : (Char.ofNat (97 + ⌊(long + 180) * 12⌋₊ % 24)).toNat
      = 97 + ⌊(long + 180) * 12⌋₊ % 24 := toNat_ofNat_valid (by omega)
  have t5 : (Char.ofNat (97 + ⌊(lat + 90) * 24⌋₊ % 24)).toNat
      = 97 + ⌊(lat + 90) * 24⌋₊ % 24 := toNat_ofNat_valid (by omega)
  have a0 : is_alpha (Char.ofNat (65 + ⌊(long + 180) * 12⌋₊ / 240)) = true := by
    simp only [is_alpha]
    rw [isAlpha_iff, t0]
    left
    omega
  have a1 : is_alpha (Char.ofNat (65 + ⌊(lat + 90) * 24⌋₊ / 240)) = true := by
    simp only [is_alpha]
    rw [isAlpha_iff, t1]
    left
    omega
  have d2 : is_digit (Char.ofNat (48 + ⌊(long + 180) * 12⌋₊ / 24 % 10)) = true := by
    simp only [is_digit]
    rw [isDigit_iff, t2]
    omega
  have d3 : is_digit (Char.ofNat (48 + ⌊(lat + 90) * 24⌋₊ / 24 % 10)) = true := by
    simp only [is_digit]
    rw [isDigit_iff, t3]
    omega
  have a4 : is_alpha (Char.ofNat (97 + ⌊(long + 180) * 12⌋₊ % 24)) = true := by
    simp only [is_alpha]
    rw [isAlpha_iff, t4]
    right
    omega
  have a5 : is_alpha (Char.ofNat (97 + ⌊(lat + 90) * 24⌋₊ % 24)) = true := by
    simp only [is_alpha]
    rw [isAlpha_iff, t5]
    right
    omega
  have up0 : Char.isUpper (Char.ofNat (65 + ⌊(long + 180) * 12⌋₊ / 240)) = true := by
    rw [isUpper_iff, t0]
    omega
  have up1 : Char.isUpper (Char.ofNat (65 + ⌊(lat + 90) * 24⌋₊ / 240)) = true := by
    rw [isUpper_iff, t1]
    omega
  have lo4 : Char.isLower (Char.ofNat (97 + ⌊(long + 180) * 12⌋₊ % 24)) = true := by
    rw [isLower_iff, t4]
    omega
  have lo5 : Char.isLower (Char.ofNat (97 + ⌊(lat + 90) * 24⌋₊ % 24)) = true := by
    rw [isLower_iff, t5]
    omega
  refine ⟨_, henc, rfl, ?_, ?_⟩
  · simp [shapePattern, up0, up1, d2, d3, lo4, lo5]
  · have hdec := decode6 _ _ _ _ _ _ a0 a1 d2 d3 a4 a5
    have u0 : (Char.ofNat (65 + ⌊(long + 180) * 12⌋₊ / 240)).toUpper.toNat
        = 65 + ⌊(long + 180) * 12⌋₊ / 240 := by
      rw [toUpper_toNat, t0, if_neg (by omega)]
    have u1 : (Char.ofNat (65 + ⌊(lat + 90) * 24⌋₊ / 240)).toUpper.toNat
        = 65 + ⌊(lat + 90) * 24⌋₊ / 240 := by
      rw [toUpper_toNat, t1, if_neg (by omega)]
    have u4 : (Char.ofNat (97 + ⌊(long + 180) * 12⌋₊ % 24)).toUpper.toNat
        = 65 + ⌊(long + 180) * 12⌋₊ % 24 := by
      rw [toUpper_toNat, t4, if_pos (by omega)]
      omega
    have u5 : (Char.ofNat (97 + ⌊(lat + 90) * 24⌋₊ % 24)).toUpper.toNat
        = 65 + ⌊(lat + 90) * 24⌋₊ % 24 := by
      rw [toUpper_toNat, t5, if_pos (by omega)]
      omega
    rw [u0, u1, u4, u5, t2, t3] at hdec
    simp only [Nat.add_sub_cancel_left] at hdec
    refine ⟨_, hdec, ?_, ?_⟩
    · have hb1 : ((⌊(long + 180) * 12⌋₊ : ℕ) : ℚ) ≤ (long + 180) * 12 :=
        Nat.floor_le (mul_nonneg (by linarith) (by norm_num))
      have hb2 : (long + 180) * 12 < ((⌊(long + 180) * 12⌋₊ : ℕ) : ℚ) + 1 :=
        Nat.lt_floor_add_one _
      have hsplit : (⌊(long + 180) * 12⌋₊ / 240 * 240 + ⌊(long + 180) * 12⌋₊ / 24 % 10 * 24
          + ⌊(long + 180) * 12⌋₊ % 24 : ℕ) = ⌊(long + 180) * 12⌋₊ := by omega
      have hQ : ((⌊(long + 180) * 12⌋₊ / 240 : ℕ) : ℚ) * 240
          + ((⌊(long + 180) * 12⌋₊ / 24 % 10 : ℕ) : ℚ) * 24
          + ((⌊(long + 180) * 12⌋₊ % 24 : ℕ) : ℚ)
          = ((⌊(long + 180) * 12⌋₊ : ℕ) : ℚ) := by
        exact_mod_cast congrArg (Nat.cast : ℕ → ℚ) hsplit
      rw [abs_le]
      constructor <;> linarith
    · have hb1 : ((⌊(lat + 90) * 24⌋₊ : ℕ) : ℚ) ≤ (lat + 90) * 24 :=
        Nat.floor_le (mul_nonneg (by linarith) (by norm_num))
      have hb2 : (lat + 90) * 24 < ((⌊(lat + 90) * 24⌋₊ : ℕ) : ℚ) + 1 :=
        Nat.lt_floor_add_one _
      have hsplit : (⌊(lat + 90) * 24⌋₊ / 240 * 240 + ⌊(lat + 90) * 24⌋₊ / 24 % 10 * 24
          + ⌊(lat + 90) * 24⌋₊ % 24 : ℕ) = ⌊(lat + 90) * 24⌋₊ := by omega
      have hQ : ((⌊(lat + 90) * 24⌋₊ / 240 : ℕ) : ℚ) * 240
          + ((⌊(lat + 90) * 24⌋₊ / 24 % 10 : ℕ) : ℚ) * 24
          + ((⌊(lat + 90) * 24⌋₊ % 24 : ℕ) : ℚ)
          = ((⌊(lat + 90) * 24⌋₊ : ℕ) : ℚ) := by
        exact_mod_cast congrArg (Nat.cast : ℕ → ℚ) hsplit
      rw [abs_le]
      constructor <;> linarith

theorem roundA8 (long lat : ℚ) (h1 : -180 ≤ long) (h2 : long ≤ 180)
    (h3 : -90 ≤ lat) (h4 : lat ≤ 90) :
    ∃ cs : List Char, longlat_to_grid long lat 8 = .ok (String.mk cs) ∧
      cs.length = 8 ∧ ((cs.zip shapePattern).all fun p => p.2 p.1) = true ∧
      ∃ q, grid_to_longlat (String.mk cs) = .ok q ∧
        |q.1 - long| ≤ 1 / 240 ∧ |q.2 - lat| ≤ 1 / 480 := by
  obtain ⟨henc, hKx, hKy⟩ := encode8_eq long lat h1 h2 h3 h4
  have t0 : (Char.ofNat (65 + ⌊(long + 180) * 120⌋₊ / 2400)).toNat
      = 65 + ⌊(long + 180) * 120⌋₊ / 2400 := toNat_ofNat_valid (by omega)
  have t1 : (Char.ofNat (65 + ⌊(lat + 90) * 240⌋₊ / 2400)).toNat
      = 65 + ⌊(lat + 90) * 240⌋₊ / 2400 := toNat_ofNat_valid (by omega)
  have t2 : (Char.ofNat (48 + ⌊(long + 180) * 120⌋₊ / 240 % 10)).toNat
      = 48 + ⌊(long + 180) * 120⌋₊ / 240 % 10 := toNat_ofNat_valid (by omega)
  have t3 : (Char.ofNat (48 + ⌊(lat + 90) * 240⌋₊ / 240 % 10)).toNat
      = 48 + ⌊(lat + 90) * 240⌋₊ / 240 % 10 := toNat_ofNat_valid (by omega)
  have t4 : (Char.ofNat (97 + ⌊(long + 180) * 120⌋₊ / 10 % 24)).toNat
      = 97 + ⌊(long + 180) * 120⌋₊ / 10 % 24 := toNat_ofNat_valid (by omega)
  have t5 : (Char.ofNat (97 + ⌊(lat + 90) * 240⌋₊ / 10 % 24)).toNat
      = 97 + ⌊(lat + 90) * 240⌋₊ / 10 % 24 := toNat_ofNat_valid (by omega)
  have t6 : (Char.ofNat (48 + ⌊(long + 180) * 120⌋₊ % 10)).toNat
      = 48 + ⌊(long + 180) * 120⌋₊ % 10 := toNat_ofNat_valid (by omega)
  have t7 : (Char.ofNat (48 + ⌊(lat + 90) * 240⌋₊ % 10)).toNat
      = 48 + ⌊(lat + 90) * 240⌋₊ % 10 := toNat_ofNat_valid (by omega)
  have a0 : is_alpha (Char.ofNat (65 + ⌊(long + 180) * 120⌋₊ / 2400)) = true := by
    simp only [is_alpha]
    rw [isAlpha_iff, t0]
    left
    omega
  have a1 : is_alpha (Char.ofNat (65 + ⌊(lat + 90) * 240⌋₊ / 2400)) = true := by
    simp only [is_alpha]
    rw [isAlpha_iff, t1]
    left
    omega
  have d2 : is_digit (Char.ofNat (48 + ⌊(long + 180) * 120⌋₊ / 240 % 10)) = true := by
    simp only [is_digit]
    rw [isDigit_iff, t2]
    omega
  have d3 : is_digit (Char.ofNat (48 + ⌊(lat + 90) * 240⌋₊ / 240 % 10)) = true := by
    simp only [is_digit]
    rw [isDigit_iff, t3]
    omega
  have a4 : is_alpha (Char.ofNat (97 + ⌊(long + 180) * 120⌋₊ / 10 % 24)) = true := by
    simp only [is_alpha]
    rw [isAlpha_iff, t4]
    right
    omega
  have a5 : is_alpha (Char.ofNat (97 + ⌊(lat + 90) * 240⌋₊ / 10 % 24)) = true := by
    simp only [is_alpha]
    rw [isAlpha_iff, t5]
    right
    omega
  have d6 : is_digit (Char.ofNat (48 + ⌊(long + 180) * 120⌋₊ % 10)) = true := by
    simp only [is_digit]
    rw [isDigit_iff, t6]
    omega
  have d7 : is_digit (Char.ofNat (48 + ⌊(lat + 90) * 240⌋₊ % 10)) = true := by
    simp only [is_digit]
    rw [isDigit_iff, t7]
    omega
  have up0 : Char.isUpper (Char.ofNat (65 + ⌊(long + 180) * 120⌋₊ / 2400)) = true := by
    rw [isUpper_iff, t0]
    omega
  have up1 : Char.isUpper (Char.ofNat (65 + ⌊(lat + 90) * 240⌋₊ / 2400)) = true := by
    rw [isUpper_iff, t1]
    omega
  have lo4 : Char.isLower (Char.ofNat (97 + ⌊(long + 180) * 120⌋₊ / 10 % 24)) = true := by
    rw [isLower_iff, t4]
    omega
  have lo5 : Char.isLower (Char.ofNat (97 + ⌊(lat + 90) * 240⌋₊ / 10 % 24)) = true := by
    rw [isLower_iff, t5]
    omega
  refine ⟨_, henc, rfl, ?_, ?_⟩
  · simp [shapePattern, up0, up1, d2, d3, lo4, lo5, d6, d7]
  · have hdec := decode8 _ _ _ _ _ _ _ _ a0 a1 d2 d3 a4 a5 d6 d7
    have u0 : (Char.ofNat (65 + ⌊(long + 180) * 120⌋₊ / 2400)).toUpper.toNat
        = 65 + ⌊(long + 180) * 120⌋₊ / 2400 := by
      rw [toUpper_toNat, t0, if_neg (by omega)]
    have u1 : (Char.ofNat (65 + ⌊(lat + 90) * 240⌋₊ / 2400)).toUpper.toNat
        = 65 + ⌊(lat + 90) * 240⌋₊ / 2400 := by
      rw [toUpper_toNat, t1, if_neg (by omega)]
    have u4 : (Char.ofNat (97 + ⌊(long + 180) * 120⌋₊ / 10 % 24)).toUpper.toNat
        = 65 + ⌊(long + 180) * 120⌋₊ / 10 % 24 := by
      rw [toUpper_toNat, t4, if_pos (by omega)]
      omega
    have u5 : (Char.ofNat (97 + ⌊(lat + 90) * 240⌋₊ / 10 % 24)).toUpper.toNat
        = 65 + ⌊(lat + 90) * 240⌋₊ / 10 % 24 := by
      rw [toUpper_toNat, t5, if_pos (by omega)]
      omega
    rw [u0, u1, t2, t3, u4, u5, t6, t7] at hdec
    simp only [Nat.add_sub_cancel_left] at hdec
    refine ⟨_, hdec, ?_, ?_⟩
    · have hb1 : ((⌊(long + 180) * 120⌋₊ : ℕ) : ℚ) ≤ (long + 180) * 120 :=
        Nat.floor_le (mul_nonneg (by linarith) (by norm_num))
      have hb2 : (long + 180) * 120 < ((⌊(long + 180) * 120⌋₊ : ℕ) : ℚ) + 1 :=
        Nat.lt_floor_add_one _
      have hsplit : (⌊(long + 180) * 120⌋₊ / 2400 * 2400 + ⌊(long + 180) * 120⌋₊ / 240 % 10 * 240 + ⌊(long + 180) * 120⌋₊ / 10 % 24 * 10 + ⌊(long + 180) * 120⌋₊ % 10 : ℕ)
          = ⌊(long + 180) * 120⌋₊ := by omega
      have hQ : ((⌊(long + 180) * 120⌋₊ / 2400 : ℕ) : ℚ) * 2400 + ((⌊(long + 180) * 120⌋₊ / 240 % 10 : ℕ) : ℚ) * 240 + ((⌊(long + 180) * 120⌋₊ / 10 % 24 : ℕ) : ℚ) * 10 + ((⌊(long + 180) * 120⌋₊ % 10 : ℕ) : ℚ)
          = ((⌊(long + 180) * 120⌋₊ : ℕ) : ℚ) := by
        exact_mod_cast congrArg (Nat.cast : ℕ → ℚ) hsplit
      rw [abs_le]
      constructor <;> linarith
    · have hb1 : ((⌊(lat + 90) * 240⌋₊ : ℕ) : ℚ) ≤ (lat + 90) * 240 :=
        Nat.floor_le (mul_nonneg (by linarith) (by norm_num))
      have hb2 : (lat + 90) * 240 < ((⌊(lat + 90) * 240⌋₊ : ℕ) : ℚ) + 1 :=
        Nat.lt_floor_add_one _
      have hsplit : (⌊(lat + 90) * 240⌋₊ / 2400 * 2400 + ⌊(lat + 90) * 240⌋₊ / 240 % 10 * 240 + ⌊(lat + 90) * 240⌋₊ / 10 % 24 * 10 + ⌊(lat + 90) * 240⌋₊ % 10 : ℕ)
          = ⌊(lat + 90) * 240⌋₊ := by omega
      have hQ : ((⌊(lat + 90) * 240⌋₊ / 2400 : ℕ) : ℚ) * 2400 + ((⌊(lat + 90) * 240⌋₊ / 240 % 10 : ℕ) : ℚ) * 240 + ((⌊(lat + 90) * 240⌋₊ / 10 % 24 : ℕ) : ℚ) * 10 + ((⌊(lat + 90) * 240⌋₊ % 10 : ℕ) : ℚ)
          = ((⌊(lat + 90) * 240⌋₊ : ℕ) : ℚ) := by
        exact_mod_cast congrArg (Nat.cast : ℕ → ℚ) hsplit
      rw [abs_le]
      constructor <;> linarith

theorem roundA10 (long lat : ℚ) (h1 : -180 ≤ long) (h2 : long ≤ 180)
    (h3 : -90 ≤ lat) (h4 : lat ≤ 90) :
    ∃ cs : List Char, longlat_to_grid long lat 10 = .ok (String.mk cs) ∧
      cs.length = 10 ∧ ((cs.zip shapePattern).all fun p => p.2 p.1) = true ∧
      ∃ q, grid_to_longlat (String.mk cs) = .ok q ∧
        |q.1 - long| ≤ 1 / 5760 ∧ |q.2 - lat| ≤ 1 / 11520 := by
  obtain ⟨henc, hKx, hKy⟩ := encode10_eq long lat h1 h2 h3 h4
  have t0 : (Char.ofNat (65 + ⌊(long + 180) * 2880⌋₊ / 57600)).toNat
      = 65 + ⌊(long + 180) * 2880⌋₊ / 57600 := toNat_ofNat_valid (by omega)
  have t1 : (Char.ofNat (65 + ⌊(lat + 90) * 5760⌋₊ / 57600)).toNat
      = 65 + ⌊(lat + 90) * 5760⌋₊ / 57600 := toNat_ofNat_valid (by omega)
  have t2 : (Char.ofNat (48 + ⌊(long + 180) * 2880⌋₊ / 5760 % 10)).toNat
      = 48 + ⌊(long + 180) * 2880⌋₊ / 5760 % 10 := toNat_ofNat_valid (by omega)
  have t3 : (Char.ofNat (48 + ⌊(lat + 90) * 5760⌋₊ / 5760 % 10)).toNat
      = 48 + ⌊(lat + 90) * 5760⌋₊ / 5760 % 10 := toNat_ofNat_valid (by omega)
  have t4 : (Char.ofNat (97 + ⌊(long + 180) * 2880⌋₊ / 240 % 24)).toNat
      = 97 + ⌊(long + 180) * 2880⌋₊ / 240 % 24 := toNat_ofNat_valid (by omega)
  have t5 : (Char.ofNat (97 + ⌊(lat + 90) * 5760⌋₊ / 240 % 24)).toNat
      = 97 + ⌊(lat + 90) * 5760⌋₊ / 240 % 24 := toNat_ofNat_valid (by omega)
  have t6 : (Char.ofNat (48 + ⌊(long + 180) * 2880⌋₊ / 24 % 10)).toNat
      = 48 + ⌊(long + 180) * 2880⌋₊ / 24 % 10 := toNat_ofNat_valid (by omega)
  have t7 : (Char.ofNat (48 + ⌊(lat + 90) * 5760⌋₊ / 24 % 10)).toNat
      = 48 + ⌊(lat + 90) * 5760⌋₊ / 24 % 10 := toNat_ofNat_valid (by omega)
  have t8 : (Char.ofNat (65 + ⌊(long + 180) * 2880⌋₊ % 24)).toNat
      = 65 + ⌊(long + 180) * 2880⌋₊ % 24 := toNat_ofNat_valid (by omega)
  have t9 : (Char.ofNat (65 + ⌊(lat + 90) * 5760⌋₊ % 24)).toNat
      = 65 + ⌊(lat + 90) * 5760⌋₊ % 24 := toNat_ofNat_valid (by omega)
  have a0 : is_alpha (Char.ofNat (65 + ⌊(long + 180) * 2880⌋₊ / 57600)) = true := by
    simp only [is_alpha]
    rw [isAlpha_iff, t0]
    left
    omega
  have a1 : is_alpha (Char.ofNat (65 + ⌊(lat + 90) * 5760⌋₊ / 57600)) = true := by
    simp only [is_alpha]
    rw [isAlpha_iff, t1]
    left
    omega
  have d2 : is_digit (Char.ofNat (48 + ⌊(long + 180) * 2880⌋₊ / 5760 % 10)) = true := by
    simp only [is_digit]
    rw [isDigit_iff, t2]
    omega
  have d3 : is_digit (Char.ofNat (48 + ⌊(lat + 90) * 5760⌋₊ / 5760 % 10)) = true := by
    simp only [is_digit]
    rw [isDigit_iff, t3]
    omega
  have a4 : is_alpha (Char.ofNat (97 + ⌊(long + 180) * 2880⌋₊ / 240 % 24)) = true := by
    simp only [is_alpha]
    rw [isAlpha_iff, t4]
    right
    omega
  have a5 : is_alpha (Char.ofNat (97 + ⌊(lat + 90) * 5760⌋₊ / 240 % 24)) = true := by
    simp only [is_alpha]
    rw [isAlpha_iff, t5]
    right
    omega
  have d6 : is_digit (Char.ofNat (48 + ⌊(long + 180) * 2880⌋₊ / 24 % 10)) = true := by
    simp only [is_digit]
    rw [isDigit_iff, t6]
    omega
  have d7 : is_digit (Char.ofNat (48 + ⌊(lat + 90) * 5760⌋₊ / 24 % 10)) = true := by
    simp only [is_digit]
    rw [isDigit_iff, t7]
    omega
  have a8 : is_alpha (Char.ofNat (65 + ⌊(long + 180) * 2880⌋₊ % 24)) = true := by
    simp only [is_alpha]
    rw [isAlpha_iff, t8]
    left
    omega
  have a9 : is_alpha (Char.ofNat (65 + ⌊(lat + 90) * 5760⌋₊ % 24)) = true := by
    simp only [is_alpha]
    rw [isAlpha_iff, t9]
    left
    omega
  have up0 : Char.isUpper (Char.ofNat (65 + ⌊(long + 180) * 2880⌋₊ / 57600)) = true := by
    rw [isUpper_iff, t0]
    omega
  have up1 : Char.isUpper (Char.ofNat (65 + ⌊(lat + 90) * 5760⌋₊ / 57600)) = true := by
    rw [isUpper_iff, t1]
    omega
  have lo4 : Char.isLower (Char.ofNat (97 + ⌊(long + 180) * 2880⌋₊ / 240 % 24)) = true := by
    rw [isLower_iff, t4]
    omega
  have lo5 : Char.isLower (Char.ofNat (97 + ⌊(lat + 90) * 5760⌋₊ / 240 % 24)) = true := by
    rw [isLower_iff, t5]
    omega
  have up8 : Char.isUpper (Char.ofNat (65 + ⌊(long + 180) * 2880⌋₊ % 24)) = true := by
    rw [isUpper_iff, t8]
    omega
  have up9 : Char.isUpper (Char.ofNat (65 + ⌊(lat + 90) * 5760⌋₊ % 24)) = true := by
    rw [isUpper_iff, t9]
    omega
  refine ⟨_, henc, rfl, ?_, ?_⟩
  · simp [shapePattern, up0, up1, d2, d3, lo4, lo5, d6, d7, up8, up9]
  · have hdec := decode10 _ _ _ _ _ _ _ _ _ _ a0 a1 d2 d3 a4 a5 d6 d7 a8 a9
    have u0 : (Char.ofNat (65 + ⌊(long + 180) * 2880⌋₊ / 57600)).toUpper.toNat
        = 65 + ⌊(long + 180) * 2880⌋₊ / 57600 := by
      rw [toUpper_toNat, t0, if_neg (by omega)]
    have u1 : (Char.ofNat (65 + ⌊(lat + 90) * 5760⌋₊ / 57600)).toUpper.toNat
        = 65 + ⌊(lat + 90) * 5760⌋₊ / 57600 := by
      rw [toUpper_toNat, t1, if_neg (by omega)]
    have u4 : (Char.ofNat (97 + ⌊(long + 180) * 2880⌋₊ / 240 % 24)).toUpper.toNat
        = 65 + ⌊(long + 180) * 2880⌋₊ / 240 % 24 := by
      rw [toUpper_toNat, t4, if_pos (by omega)]
      omega
    have u5 : (Char.ofNat (97 + ⌊(lat + 90) * 5760⌋₊ / 240 % 24)).toUpper.toNat
        = 65 + ⌊(lat + 90) * 5760⌋₊ / 240 % 24 := by
      rw [toUpper_toNat, t5, if_pos (by omega)]
      omega
    have u8 : (Char.ofNat (65 + ⌊(long + 180) * 2880⌋₊ % 24)).toUpper.toNat
        = 65 + ⌊(long + 180) * 2880⌋₊ % 24 := by
      rw [toUpper_toNat, t8, if_neg (by omega)]
    have u9 : (Char.ofNat (65 + ⌊(lat + 90) * 5760⌋₊ % 24)).toUpper.toNat
        = 65 + ⌊(lat + 90) * 5760⌋₊ % 24 := by
      rw [toUpper_toNat, t9, if_neg (by omega)]
    rw [u0, u1, t2, t3, u4, u5, t6, t7, u8, u9] at hdec
    simp only [Nat.add_sub_cancel_left] at hdec
    refine ⟨_, hdec, ?_, ?_⟩
    · have hb1 : ((⌊(long + 180) * 2880⌋₊ : ℕ) : ℚ) ≤ (long + 180) * 2880 :=
        Nat.floor_le (mul_nonneg (by linarith) (by norm_num))
      have hb2 : (long + 180) * 2880 < ((⌊(long + 180) * 2880⌋₊ : ℕ) : ℚ) + 1 :=
        Nat.lt_floor_add_one _
      have hsplit : (⌊(long + 180) * 2880⌋₊ / 57600 * 57600 + ⌊(long + 180) * 2880⌋₊ / 5760 % 10 * 5760 + ⌊(long + 180) * 2880⌋₊ / 240 % 24 * 240 + ⌊(long + 180) * 2880⌋₊ / 24 % 10 * 24 + ⌊(long + 180) * 2880⌋₊ % 24 : ℕ)
          = ⌊(long + 180) * 2880⌋₊ := by omega
      have hQ : ((⌊(long + 180) * 2880⌋₊ / 57600 : ℕ) : ℚ) * 57600 + ((⌊(long + 180) * 2880⌋₊ / 5760 % 10 : ℕ) : ℚ) * 5760 + ((⌊(long + 180) * 2880⌋₊ / 240 % 24 : ℕ) : ℚ) * 240 + ((⌊(long + 180) * 2880⌋₊ / 24 % 10 : ℕ) : ℚ) * 24 + ((⌊(long + 180) * 2880⌋₊ % 24 : ℕ) : ℚ)
          = ((⌊(long + 180) * 2880⌋₊ : ℕ) : ℚ) := by
        exact_mod_cast congrArg (Nat.cast : ℕ → ℚ) hsplit
      rw [abs_le]
      constructor <;> linarith
    · have hb1 : ((⌊(lat + 90) * 5760⌋₊ : ℕ) : ℚ) ≤ (lat + 90) * 5760 :=
        Nat.floor_le (mul_nonneg (by linarith) (by norm_num))
      have hb2 : (lat + 90) * 5760 < ((⌊(lat + 90) * 5760⌋₊ : ℕ) : ℚ) + 1 :=
        Nat.lt_floor_add_one _
      have hsplit : (⌊(lat + 90) * 5760⌋₊ / 57600 * 57600 + ⌊(lat + 90) * 5760⌋₊ / 5760 % 10 * 5760 + ⌊(lat + 90) * 5760⌋₊ / 240 % 24 * 240 + ⌊(lat + 90) * 5760⌋₊ / 24 % 10 * 24 + ⌊(lat + 90) * 5760⌋₊ % 24 : ℕ)
          = ⌊(lat + 90) * 5760⌋₊ := by omega
      have hQ : ((⌊(lat + 90) * 5760⌋₊ / 57600 : ℕ) : ℚ) * 57600 + ((⌊(lat + 90) * 5760⌋₊ / 5760 % 10 : ℕ) : ℚ) * 5760 + ((⌊(lat + 90) * 5760⌋₊ / 240 % 24 : ℕ) : ℚ) * 240 + ((⌊(lat + 90) * 5760⌋₊ / 24 % 10 : ℕ) : ℚ) * 24 + ((⌊(lat + 90) * 5760⌋₊ % 24 : ℕ) : ℚ)
          = ((⌊(lat + 90) * 5760⌋₊ : ℕ) : ℚ) := by
        exact_mod_cast congrArg (Nat.cast : ℕ → ℚ) hsplit
      rw [abs_le]
      constructor <;> linarith

/-! Helper lemmas for the real-valued geodesy. -/

theorem atan2_mem (y x : ℝ) : -Real.pi < atan2 y x ∧ atan2 y x ≤ Real.pi := by
  have hp := Real.pi_pos
  have h1 := Real.arctan_lt_pi_div_two (y / x)
  have h2 := Real.neg_pi_div_two_lt_arctan (y / x)
  unfold atan2
  split_ifs with hx hx2 hy hy2 hy3
  · constructor <;> linarith
  · have hyx : y / x ≤ 0 := div_nonpos_iff.mpr (Or.inl ⟨hy, hx2.le⟩)
    have h3 : Real.arctan (y / x) ≤ 0 := by
      have := Real.arctan_strictMono.monotone hyx
      rwa [Real.arctan_zero] at this
    constructor <;> linarith
  · have hyx : 0 < y / x := div_pos_iff.mpr (Or.inr ⟨by linarith, hx2⟩)
    have h3 : 0 < Real.arctan (y / x) := by
      have := Real.arctan_strictMono hyx
      rwa [Real.arctan_zero] at this
    constructor <;> linarith
  · constructor <;> linarith
  · constructor <;> linarith
  · constructor <;> linarith

theorem fremR_bound (z : ℝ) (hz : 0 < z) : 0 ≤ fremR z 360 ∧ fremR z 360 < 360 := by
  unfold fremR ftruncR
  rw [if_pos (by positivity : (0 : ℝ) ≤ z / 360)]
  have h1 : ((⌊z / 360⌋ : ℤ) : ℝ) ≤ z / 360 := Int.floor_le (z / 360)
  have h2 := Int.lt_floor_add_one (z / 360)
  constructor <;> nlinarith

theorem frem_deg_bound (θ : ℝ) (h1 : -Real.pi < θ) (_h2 : θ ≤ Real.pi) :
    0 ≤ fremR (toDegrees θ + 360) 360 ∧ fremR (toDegrees θ + 360) 360 < 360 := by
  apply fremR_bound
  have hp := Real.pi_pos
  unfold toDegrees
  have key : (-180 : ℝ) < θ * (180 / Real.pi) := by
    have h3 : -Real.pi * (180 / Real.pi) = -180 := by field_simp; ring
    calc (-180 : ℝ) = -Real.pi * (180 / Real.pi) := h3.symm
      _ < θ * (180 / Real.pi) := mul_lt_mul_of_pos_right h1 (by positivity)
  linarith

theorem distBearing_snd_mem (a b c d : ℚ) :
    0 ≤ (distBearing a b c d).2 ∧ (distBearing a b c d).2 < 360 := by
  unfold distBearing
  exact frem_deg_bound _ (atan2_mem _ _).1 (atan2_mem _ _).2

theorem distBearing_self_pair (a b : ℚ) : distBearing a b a b = (0, 0) := by
  unfold distBearing
  simp only [sub_self]
  rw [show toRadians 0 = 0 from by unfold toRadians; ring]
  norm_num [Real.sin_zero, Real.cos_zero, Real.sqrt_zero, Real.sqrt_one]
  constructor
  · exact show atan2 0 1 = 0 from by unfold atan2; norm_num [Real.arctan_zero]
  · rw [show Real.cos (toRadians (b : ℝ)) * Real.sin (toRadians (b : ℝ))
        - Real.sin (toRadians (b : ℝ)) * Real.cos (toRadians (b : ℝ)) = 0 from by ring]
    rw [show atan2 0 0 = 0 from by unfold atan2; norm_num]
    rw [show toDegrees 0 = 0 from by unfold toDegrees; ring]
    unfold fremR ftruncR
    norm_num

theorem grid_dist_bearing_self_AA00 : grid_dist_bearing "AA00" "AA00" = .ok (0, 0) := by
  unfold grid_dist_bearing
  rw [show grid_to_longlat "AA00" = .ok (-179, -179 / 2) from by with_unfolding_all rfl]
  dsimp only
  rw [distBearing_self_pair]

/-! Helpers for the canonical round-trip (claim C1, amended). -/

theorem char_le_toNat {c d : Char} (h : c ≤ d) : c.toNat ≤ d.toNat := h

theorem alpha_toUpper_bounds (c : Char) (h : c.isAlpha = true) :
    65 ≤ c.toUpper.toNat ∧ c.toUpper.toNat ≤ 90 := by
  have := isAlpha_iff.mp h
  rw [toUpper_toNat]
  split_ifs <;> omega

theorem alpha_toLower_eq (c : Char) (h : c.isAlpha = true) :
    c.toLower.toNat = c.toUpper.toNat + 32 := by
  have := isAlpha_iff.mp h
  rw [toUpper_toNat, toLower_toNat]
  split_ifs <;> omega

theorem byteLen_ge_length (cs : List Char) : cs.length ≤ byteLen cs := by
  induction cs with
  | nil => simp [byteLen]
  | cons c cs ih =>
    have := Char.utf8Size_pos c
    simp [byteLen] at *
    omega

theorem zip_all_ascii : ∀ (cs : List Char) (ps : List (Char → Bool)),
    (∀ f ∈ ps, ∀ c : Char, f c = true → c.utf8Size = 1) → cs.length ≤ ps.length →
    ((cs.zip ps).all fun p => p.2 p.1) = true → byteLen cs = cs.length := by
  intro cs
  induction cs with
  | nil =>
    intro ps _ _ _
    simp [byteLen]
  | cons c cs ih =>
    intro ps hps hlen hall
    cases ps with
    | nil => simp at hlen
    | cons f ps =>
      simp only [List.zip_cons_cons, List.all_cons, Bool.and_eq_true] at hall
      obtain ⟨hc, hrest⟩ := hall
      have hs := hps f (by simp) c hc
      have hrec := ih ps (fun g hg => hps g (by simp [hg])) (by simpa using hlen) hrest
      simp [byteLen] at hrec ⊢
      omega

theorem canonPattern_ascii : ∀ f ∈ canonPattern, ∀ c : Char, f c = true → c.utf8Size = 1 := by
  intro f hf c hc
  apply utf8Size_eq_one
  have hfa : f = fieldOK ∨ f = is_digit ∨ f = sub24OK := by
    simp [canonPattern] at hf
    tauto
  rcases hfa with rfl | rfl | rfl
  · simp [fieldOK] at hc
    have := isAlpha_iff.mp hc.1
    omega
  · simp [is_digit] at hc
    have := isDigit_iff.mp hc
    omega
  · simp [sub24OK] at hc
    have := isAlpha_iff.mp hc.1
    omega

theorem list_len4 {α : Type} (l : List α) (h : l.length = 4) :
    ∃ a b c d, l = [a, b, c, d] := by
  rcases l with _ | ⟨a, _ | ⟨b, _ | ⟨c, _ | ⟨d, _ | ⟨e, l⟩⟩⟩⟩⟩ <;> simp_all

theorem natFloor_half_eq (K : ℕ) : ⌊(K : ℚ) + 1 / 2⌋₊ = K := by
  rw [Nat.floor_eq_iff (by positivity)]
  constructor
  · linarith
  · linarith

theorem roundB4 (c0 c1 c2 c3 : Char)
    (k0 : fieldOK c0 = true) (k1 : fieldOK c1 = true)
    (k2 : is_digit c2 = true) (k3 : is_digit c3 = true) :
    ∃ long lat, grid_to_longlat (String.mk [c0, c1, c2, c3]) = .ok (long, lat) ∧
      longlat_to_grid long lat 4 = .ok (String.mk [c0.toUpper, c1.toUpper, c2, c3]) := by
  simp only [fieldOK, Bool.and_eq_true, decide_eq_true_eq] at k0 k1
  obtain ⟨ka0, kr0⟩ := k0
  obtain ⟨ka1, kr1⟩ := k1
  have hu0 := alpha_toUpper_bounds c0 ka0
  have hu1 := alpha_toUpper_bounds c1 ka1
  have hr0 : c0.toUpper.toNat ≤ 82 := char_le_toNat kr0
  have hr1 : c1.toUpper.toNat ≤ 82 := char_le_toNat kr1
  have hd2 := isDigit_iff.mp (by simpa [is_digit] using k2)
  have hd3 := isDigit_iff.mp (by simpa [is_digit] using k3)
  have hdec := decode4 c0 c1 c2 c3 (by simpa [is_alpha] using ka0)
    (by simpa [is_alpha] using ka1) k2 k3
  set a := c0.toUpper.toNat - 65 with hadef
  set p := c1.toUpper.toNat - 65 with hpdef
  set b := c2.toNat - 48 with hbdef
  set q := c3.toNat - 48 with hqdef
  have ha : a ≤ 17 := by omega
  have hp : p ≤ 17 := by omega
  have hb : b ≤ 9 := by omega
  have hq : q ≤ 9 := by omega
  have haQ : ((a : ℕ) : ℚ) ≤ 17 := by exact_mod_cast ha
  have hpQ : ((p : ℕ) : ℚ) ≤ 17 := by exact_mod_cast hp
  have hbQ : ((b : ℕ) : ℚ) ≤ 9 := by exact_mod_cast hb
  have hqQ : ((q : ℕ) : ℚ) ≤ 9 := by exact_mod_cast hq
  have ha0 : (0 : ℚ) ≤ ((a : ℕ) : ℚ) := Nat.cast_nonneg a
  have hp0 : (0 : ℚ) ≤ ((p : ℕ) : ℚ) := Nat.cast_nonneg p
  have hb0 : (0 : ℚ) ≤ ((b : ℕ) : ℚ) := Nat.cast_nonneg b
  have hq0 : (0 : ℚ) ≤ ((q : ℕ) : ℚ) := Nat.cast_nonneg q
  refine ⟨_, _, hdec, ?_⟩
  obtain ⟨henc, hKx2, hKy2⟩ := encode4_eq
    (((a : ℕ) : ℚ) * 20 + ((b : ℕ) : ℚ) * 2 + 1 - 180)
    (((p : ℕ) : ℚ) * 10 + ((q : ℕ) : ℚ) * 1 + 1 / 2 - 90)
    (by linarith) (by linarith) (by linarith) (by linarith)
  have hKx : ⌊(((a : ℕ) : ℚ) * 20 + ((b : ℕ) : ℚ) * 2 + 1 - 180 + 180) / 2⌋₊ = a * 10 + b := by
    rw [show (((a : ℕ) : ℚ) * 20 + ((b : ℕ) : ℚ) * 2 + 1 - 180 + 180) / 2
        = ((a * 10 + b : ℕ) : ℚ) + 1 / 2 from by push_cast; ring]
    exact natFloor_half_eq _
  have hKy : ⌊((p : ℕ) : ℚ) * 10 + ((q : ℕ) : ℚ) * 1 + 1 / 2 - 90 + 90⌋₊ = p * 10 + q := by
    rw [show ((p : ℕ) : ℚ) * 10 + ((q : ℕ) : ℚ) * 1 + 1 / 2 - 90 + 90
        = ((p * 10 + q : ℕ) : ℚ) + 1 / 2 from by push_cast; ring]
    exact natFloor_half_eq _
  rw [hKx, hKy] at henc
  rw [show (a * 10 + b) / 10 = a from by omega, show (a * 10 + b) % 10 = b from by omega,
    show (p * 10 + q) / 10 = p from by omega, show (p * 10 + q) % 10 = q from by omega] at henc
  have e0 : Char.ofNat (65 + a) = c0.toUpper :=
    char_eq_of_toNat_eq (by rw [toNat_ofNat_valid (by omega)]; omega)
  have e1 : Char.ofNat (65 + p) = c1.toUpper :=
    char_eq_of_toNat_eq (by rw [toNat_ofNat_valid (by omega)]; omega)
  have e2 : Char.ofNat (48 + b) = c2 :=
    char_eq_of_toNat_eq (by rw [toNat_ofNat_valid (by omega)]; omega)
  have e3 : Char.ofNat (48 + q) = c3 :=
    char_eq_of_toNat_eq (by rw [toNat_ofNat_valid (by omega)]; omega)
  rw [e0, e1, e2, e3] at henc
  exact henc

theorem roundB6 (c0 c1 c2 c3 c4 c5 : Char)
    (k0 : fieldOK c0 = true) (k1 : fieldOK c1 = true)
    (k2 : is_digit c2 = true) (k3 : is_digit c3 = true)
    (k4 : sub24OK c4 = true) (k5 : sub24OK c5 = true)
    :
    ∃ long lat, grid_to_longlat (String.mk [c0, c1, c2, c3, c4, c5]) = .ok (long, lat) ∧
      longlat_to_grid long lat 6 = .ok (String.mk [c0.toUpper, c1.toUpper, c2, c3, c4.toLower, c5.toLower]) := by
  simp only [fieldOK, sub24OK, Bool.and_eq_true, decide_eq_true_eq] at k0 k1 k4 k5
  obtain ⟨ka0, kr0⟩ := k0
  have hu0 := alpha_toUpper_bounds c0 ka0
  have hr0 : c0.toUpper.toNat ≤ 82 := char_le_toNat kr0
  obtain ⟨ka1, kr1⟩ := k1
  have hu1 := alpha_toUpper_bounds c1 ka1
  have hr1 : c1.toUpper.toNat ≤ 82 := char_le_toNat kr1
  obtain ⟨ka4, kr4⟩ := k4
  have hu4 := alpha_toUpper_bounds c4 ka4
  have hr4 : c4.toUpper.toNat ≤ 88 := char_le_toNat kr4
  obtain ⟨ka5, kr5⟩ := k5
  have hu5 := alpha_toUpper_bounds c5 ka5
  have hr5 : c5.toUpper.toNat ≤ 88 := char_le_toNat kr5
  have hd2 := isDigit_iff.mp (by simpa [is_digit] using k2)
  have hd3 := isDigit_iff.mp (by simpa [is_digit] using k3)
  have hdec := decode6 c0 c1 c2 c3 c4 c5
    (by simpa [is_alpha] using ka0) (by simpa [is_alpha] using ka1) k2 k3 (by simpa [is_alpha] using ka4) (by simpa [is_alpha] using ka5)
  set v0 := c0.toUpper.toNat - 65 with hv0def
  set v1 := c1.toUpper.toNat - 65 with hv1def
  set v2 := c2.toNat - 48 with hv2def
  set v3 := c3.toNat - 48 with hv3def
  set v4 := c4.toUpper.toNat - 65 with hv4def
  set v5 := c5.toUpper.toNat - 65 with hv5def
  have hb0 : v0 ≤ 17 := by omega
  have hbQ0 : ((v0 : ℕ) : ℚ) ≤ 17 := by exact_mod_cast hb0
  have hb00 : (0 : ℚ) ≤ ((v0 : ℕ) : ℚ) := Nat.cast_nonneg v0
  have hb1 : v1 ≤ 17 := by omega
  have hbQ1 : ((v1 : ℕ) : ℚ) ≤ 17 := by exact_mod_cast hb1
  have hb01 : (0 : ℚ) ≤ ((v1 : ℕ) : ℚ) := Nat.cast_nonneg v1
  have hb2 : v2 ≤ 9 := by omega
  have hbQ2 : ((v2 : ℕ) : ℚ) ≤ 9 := by exact_mod_cast hb2
  have hb02 : (0 : ℚ) ≤ ((v2 : ℕ) : ℚ) := Nat.cast_nonneg v2
  have hb3 : v3 ≤ 9 := by omega
  have hbQ3 : ((v3 : ℕ) : ℚ) ≤ 9 := by exact_mod_cast hb3
  have hb03 : (0 : ℚ) ≤ ((v3 : ℕ) : ℚ) := Nat.cast_nonneg v3
  have hb4 : v4 ≤ 23 := by omega
  have hbQ4 : ((v4 : ℕ) : ℚ) ≤ 23 := by exact_mod_cast hb4
  have hb04 : (0 : ℚ) ≤ ((v4 : ℕ) : ℚ) := Nat.cast_nonneg v4
  have hb5 : v5 ≤ 23 := by omega
  have hbQ5 : ((v5 : ℕ) : ℚ) ≤ 23 := by exact_mod_cast hb5
  have hb05 : (0 : ℚ) ≤ ((v5 : ℕ) : ℚ) := Nat.cast_nonneg v5
  refine ⟨_, _, hdec, ?_⟩
  obtain ⟨henc, hKb1, hKb2⟩ := encode6_eq
    (((v0 : ℕ) : ℚ) * 20 + ((v2 : ℕ) : ℚ) * 2 + ((v4 : ℕ) : ℚ) * (1 / 12) + 1 / 24 - 180)
    (((v1 : ℕ) : ℚ) * 10 + ((v3 : ℕ) : ℚ) * 1 + ((v5 : ℕ) : ℚ) * (1 / 24) + 1 / 48 - 90)
    (by linarith) (by linarith) (by linarith) (by linarith)
  have hKx : ⌊(((v0 : ℕ) : ℚ) * 20 + ((v2 : ℕ) : ℚ) * 2 + ((v4 : ℕ) : ℚ) * (1 / 12) + 1 / 24 - 180 + 180) * 12⌋₊ = v0 * 240 + v2 * 24 + v4 := by
    rw [show (((v0 : ℕ) : ℚ) * 20 + ((v2 : ℕ) : ℚ) * 2 + ((v4 : ℕ) : ℚ) * (1 / 12) + 1 / 24 - 180 + 180) * 12
        = ((v0 * 240 + v2 * 24 + v4 : ℕ) : ℚ) + 1 / 2 from by push_cast; ring]
    exact natFloor_half_eq _
  have hKy : ⌊(((v1 : ℕ) : ℚ) * 10 + ((v3 : ℕ) : ℚ) * 1 + ((v5 : ℕ) : ℚ) * (1 / 24) + 1 / 48 - 90 + 90) * 24⌋₊ = v1 * 240 + v3 * 24 + v5 := by
    rw [show (((v1 : ℕ) : ℚ) * 10 + ((v3 : ℕ) : ℚ) * 1 + ((v5 : ℕ) : ℚ) * (1 / 24) + 1 / 48 - 90 + 90) * 24
        = ((v1 * 240 + v3 * 24 + v5 : ℕ) : ℚ) + 1 / 2 from by push_cast; ring]
    exact natFloor_half_eq _
  rw [hKx, hKy] at henc
  rw [show (v0 * 240 + v2 * 24 + v4) / 240 = v0 from by omega,
    show (v0 * 240 + v2 * 24 + v4) / 24 % 10 = v2 from by omega,
    show (v0 * 240 + v2 * 24 + v4) % 24 = v4 from by omega,
    show (v1 * 240 + v3 * 24 + v5) / 240 = v1 from by omega,
    show (v1 * 240 + v3 * 24 + v5) / 24 % 10 = v3 from by omega,
    show (v1 * 240 + v3 * 24 + v5) % 24 = v5 from by omega] at henc
  have e0 : Char.ofNat (65 + v0) = c0.toUpper :=
    char_eq_of_toNat_eq (by rw [toNat_ofNat_valid (by omega)]; omega)
  have e1 : Char.ofNat (65 + v1) = c1.toUpper :=
    char_eq_of_toNat_eq (by rw [toNat_ofNat_valid (by omega)]; omega)
  have e2 : Char.ofNat (48 + v2) = c2 :=
    char_eq_of_toNat_eq (by rw [toNat_ofNat_valid (by omega)]; omega)
  have e3 : Char.ofNat (48 + v3) = c3 :=
    char_eq_of_toNat_eq (by rw [toNat_ofNat_valid (by omega)]; omega)
  have e4 : Char.ofNat (97 + v4) = c4.toLower :=
    char_eq_of_toNat_eq (by rw [toNat_ofNat_valid (by omega), alpha_toLower_eq c4 ka4]; omega)
  have e5 : Char.ofNat (97 + v5) = c5.toLower :=
    char_eq_of_toNat_eq (by rw [toNat_ofNat_valid (by omega), alpha_toLower_eq c5 ka5]; omega)
  rw [e0, e1, e2, e3, e4, e5] at henc
  exact henc

theorem roundB8 (c0 c1 c2 c3 c4 c5 c6 c7 : Char)
    (k0 : fieldOK c0 = true) (k1 : fieldOK c1 = true)
    (k2 : is_digit c2 = true) (k3 : is_digit c3 = true)
    (k4 : sub24OK c4 = true) (k5 : sub24OK c5 = true)
    (k6 : is_digit c6 = true) (k7 : is_digit c7 = true)
    :
    ∃ long lat, grid_to_longlat (String.mk [c0, c1, c2, c3, c4, c5, c6, c7]) = .ok (long, lat) ∧
      longlat_to_grid long lat 8 = .ok (String.mk [c0.toUpper, c1.toUpper, c2, c3, c4.toLower, c5.toLower, c6, c7]) := by
  simp only [fieldOK, sub24OK, Bool.and_eq_true, decide_eq_true_eq] at k0 k1 k4 k5
  obtain ⟨ka0, kr0⟩ := k0
  have hu0 := alpha_toUpper_bounds c0 ka0
  have hr0 : c0.toUpper.toNat ≤ 82 := char_le_toNat kr0
  obtain ⟨ka1, kr1⟩ := k1
  have hu1 := alpha_toUpper_bounds c1 ka1
  have hr1 : c1.toUpper.toNat ≤ 82 := char_le_toNat kr1
  obtain ⟨ka4, kr4⟩ := k4
  have hu4 := alpha_toUpper_bounds c4 ka4
  have hr4 : c4.toUpper.toNat ≤ 88 := char_le_toNat kr4
  obtain ⟨ka5, kr5⟩ := k5
  have hu5 := alpha_toUpper_bounds c5 ka5
  have hr5 : c5.toUpper.toNat ≤ 88 := char_le_toNat kr5
  have hd2 := isDigit_iff.mp (by simpa [is_digit] using k2)
  have hd3 := isDigit_iff.mp (by simpa [is_digit] using k3)
  have hd6 := isDigit_iff.mp (by simpa [is_digit] using k6)
  have hd7 := isDigit_iff.mp (by simpa [is_digit] using k7)
  have hdec := decode8 c0 c1 c2 c3 c4 c5 c6 c7
    (by simpa [is_alpha] using ka0) (by simpa [is_alpha] using ka1) k2 k3 (by simpa [is_alpha] using ka4) (by simpa [is_alpha] using ka5) k6 k7
  set v0 := c0.toUpper.toNat - 65 with hv0def
  set v1 := c1.toUpper.toNat - 65 with hv1def
  set v2 := c2.toNat - 48 with hv2def
  set v3 := c3.toNat - 48 with hv3def
  set v4 := c4.toUpper.toNat - 65 with hv4def
  set v5 := c5.toUpper.toNat - 65 with hv5def
  set v6 := c6.toNat - 48 with hv6def
  set v7 := c7.toNat - 48 with hv7def
  have hb0 : v0 ≤ 17 := by omega
  have hbQ0 : ((v0 : ℕ) : ℚ) ≤ 17 := by exact_mod_cast hb0
  have hb00 : (0 : ℚ) ≤ ((v0 : ℕ) : ℚ) := Nat.cast_nonneg v0
  have hb1 : v1 ≤ 17 := by omega
  have hbQ1 : ((v1 : ℕ) : ℚ) ≤ 17 := by exact_mod_cast hb1
  have hb01 : (0 : ℚ) ≤ ((v1 : ℕ) : ℚ) := Nat.cast_nonneg v1
  have hb2 : v2 ≤ 9 := by omega
  have hbQ2 : ((v2 : ℕ) : ℚ) ≤ 9 := by exact_mod_cast hb2
  have hb02 : (0 : ℚ) ≤ ((v2 : ℕ) : ℚ) := Nat.cast_nonneg v2
  have hb3 : v3 ≤ 9 := by omega
  have hbQ3 : ((v3 : ℕ) : ℚ) ≤ 9 := by exact_mod_cast hb3
  have hb03 : (0 : ℚ) ≤ ((v3 : ℕ) : ℚ) := Nat.cast_nonneg v3
  have hb4 : v4 ≤ 23 := by omega
  have hbQ4 : ((v4 : ℕ) : ℚ) ≤ 23 := by exact_mod_cast hb4
  have hb04 : (0 : ℚ) ≤ ((v4 : ℕ) : ℚ) := Nat.cast_nonneg v4
  have hb5 : v5 ≤ 23 := by omega
  have hbQ5 : ((v5 : ℕ) : ℚ) ≤ 23 := by exact_mod_cast hb5
  have hb05 : (0 : ℚ) ≤ ((v5 : ℕ) : ℚ) := Nat.cast_nonneg v5
  have hb6 : v6 ≤ 9 := by omega
  have hbQ6 : ((v6 : ℕ) : ℚ) ≤ 9 := by exact_mod_cast hb6
  have hb06 : (0 : ℚ) ≤ ((v6 : ℕ) : ℚ) := Nat.cast_nonneg v6
  have hb7 : v7 ≤ 9 := by omega
  have hbQ7 : ((v7 : ℕ) : ℚ) ≤ 9 := by exact_mod_cast hb7
  have hb07 : (0 : ℚ) ≤ ((v7 : ℕ) : ℚ) := Nat.cast_nonneg v7
  refine ⟨_, _, hdec, ?_⟩
  obtain ⟨henc, hKb1, hKb2⟩ := encode8_eq
    (((v0 : ℕ) : ℚ) * 20 + ((v2 : ℕ) : ℚ) * 2 + ((v4 : ℕ) : ℚ) * (1 / 12) + ((v6 : ℕ) : ℚ) * (1 / 120) + 1 / 240 - 180)
    (((v1 : ℕ) : ℚ) * 10 + ((v3 : ℕ) : ℚ) * 1 + ((v5 : ℕ) : ℚ) * (1 / 24) + ((v7 : ℕ) : ℚ) * (1 / 240) + 1 / 480 - 90)
    (by linarith) (by linarith) (by linarith) (by linarith)
  have hKx : ⌊(((v0 : ℕ) : ℚ) * 20 + ((v2 : ℕ) : ℚ) * 2 + ((v4 : ℕ) : ℚ) * (1 / 12) + ((v6 : ℕ) : ℚ) * (1 / 120) + 1 / 240 - 180 + 180) * 120⌋₊ = v0 * 2400 + v2 * 240 + v4 * 10 + v6 := by
    rw [show (((v0 : ℕ) : ℚ) * 20 + ((v2 : ℕ) : ℚ) * 2 + ((v4 : ℕ) : ℚ) * (1 / 12) + ((v6 : ℕ) : ℚ) * (1 / 120) + 1 / 240 - 180 + 180) * 120
        = ((v0 * 2400 + v2 * 240 + v4 * 10 + v6 : ℕ) : ℚ) + 1 / 2 from by push_cast; ring]
    exact natFloor_half_eq _
  have hKy : ⌊(((v1 : ℕ) : ℚ) * 10 + ((v3 : ℕ) : ℚ) * 1 + ((v5 : ℕ) : ℚ) * (1 / 24) + ((v7 : ℕ) : ℚ) * (1 / 240) + 1 / 480 - 90 + 90) * 240⌋₊ = v1 * 2400 + v3 * 240 + v5 * 10 + v7 := by
    rw [show (((v1 : ℕ) : ℚ) * 10 + ((v3 : ℕ) : ℚ) * 1 + ((v5 : ℕ) : ℚ) * (1 / 24) + ((v7 : ℕ) : ℚ) * (1 / 240) + 1 / 480 - 90 + 90) * 240
        = ((v1 * 2400 + v3 * 240 + v5 * 10 + v7 : ℕ) : ℚ) + 1 / 2 from by push_cast; ring]
    exact natFloor_half_eq _
  rw [hKx, hKy] at henc
  rw [show (v0 * 2400 + v2 * 240 + v4 * 10 + v6) / 2400 = v0 from by omega,
    show (v0 * 2400 + v2 * 240 + v4 * 10 + v6) / 240 % 10 = v2 from by omega,
    show (v0 * 2400 + v2 * 240 + v4 * 10 + v6) / 10 % 24 = v4 from by omega,
    show (v0 * 2400 + v2 * 240 + v4 * 10 + v6) % 10 = v6 from by omega,
    show (v1 * 2400 + v3 * 240 + v5 * 10 + v7) / 2400 = v1 from by omega,
    show (v1 * 2400 + v3 * 240 + v5 * 10 + v7) / 240 % 10 = v3 from by omega,
    show (v1 * 2400 + v3 * 240 + v5 * 10 + v7) / 10 % 24 = v5 from by omega,
    show (v1 * 2400 + v3 * 240 + v5 * 10 + v7) % 10 = v7 from by omega] at henc
  have e0 : Char.ofNat (65 + v0) = c0.toUpper :=
    char_eq_of_toNat_eq (by rw [toNat_ofNat_valid (by omega)]; omega)
  have e1 : Char.ofNat (65 + v1) = c1.toUpper :=
    char_eq_of_toNat_eq (by rw [toNat_ofNat_valid (by omega)]; omega)
  have e2 : Char.ofNat (48 + v2) = c2 :=
    char_eq_of_toNat_eq (by rw [toNat_ofNat_valid (by omega)]; omega)
  have e3 : Char.ofNat (48 + v3) = c3 :=
    char_eq_of_toNat_eq (by rw [toNat_ofNat_valid (by omega)]; omega)
  have e4 : Char.ofNat (97 + v4) = c4.toLower :=
    char_eq_of_toNat_eq (by rw [toNat_ofNat_valid (by omega), alpha_toLower_eq c4 ka4]; omega)
  have e5 : Char.ofNat (97 + v5) = c5.toLower :=
    char_eq_of_toNat_eq (by rw [toNat_ofNat_valid (by omega), alpha_toLower_eq c5 ka5]; omega)
  have e6 : Char.ofNat (48 + v6) = c6 :=
    char_eq_of_toNat_eq (by rw [toNat_ofNat_valid (by omega)]; omega)
  have e7 : Char.ofNat (48 + v7) = c7 :=
    char_eq_of_toNat_eq (by rw [toNat_ofNat_valid (by omega)]; omega)
  rw [e0, e1, e2, e3, e4, e5, e6, e7] at henc
  exact henc

theorem roundB10 (c0 c1 c2 c3 c4 c5 c6 c7 c8 c9 : Char)
    (k0 : fieldOK c0 = true) (k1 : fieldOK c1 = true)
    (k2 : is_digit c2 = true) (k3 : is_digit c3 = true)
    (k4 : sub24OK c4 = true) (k5 : sub24OK c5 = true)
    (k6 : is_digit c6 = true) (k7 : is_digit c7 = true)
    (k8 : sub24OK c8 = true) (k9 : sub24OK c9 = true)
    :
    ∃ long lat, grid_to_longlat (String.mk [c0, c1, c2, c3, c4, c5, c6, c7, c8, c9]) = .ok (long, lat) ∧
      longlat_to_grid long lat 10 = .ok (String.mk [c0.toUpper, c1.toUpper, c2, c3, c4.toLower, c5.toLower, c6, c7, c8.toUpper, c9.toUpper]) := by
  simp only [fieldOK, sub24OK, Bool.and_eq_true, decide_eq_true_eq] at k0 k1 k4 k5 k8 k9
  obtain ⟨ka0, kr0⟩ := k0
  have hu0 := alpha_toUpper_bounds c0 ka0
  have hr0 : c0.toUpper.toNat ≤ 82 := char_le_toNat kr0
  obtain ⟨ka1, kr1⟩ := k1
  have hu1 := alpha_toUpper_bounds c1 ka1
  have hr1 : c1.toUpper.toNat ≤ 82 := char_le_toNat kr1
  obtain ⟨ka4, kr4⟩ := k4
  have hu4 := alpha_toUpper_bounds c4 ka4
  have hr4 : c4.toUpper.toNat ≤ 88 := char_le_toNat kr4
  obtain ⟨ka5, kr5⟩ := k5
  have hu5 := alpha_toUpper_bounds c5 ka5
  have hr5 : c5.toUpper.toNat ≤ 88 := char_le_toNat kr5
  obtain ⟨ka8, kr8⟩ := k8
  have hu8 := alpha_toUpper_bounds c8 ka8
  have hr8 : c8.toUpper.toNat ≤ 88 := char_le_toNat kr8
  obtain ⟨ka9, kr9⟩ := k9
  have hu9 := alpha_toUpper_bounds c9 ka9
  have hr9 : c9.toUpper.toNat ≤ 88 := char_le_toNat kr9
  have hd2 := isDigit_iff.mp (by simpa [is_digit] using k2)
  have hd3 := isDigit_iff.mp (by simpa [is_digit] using k3)
  have hd6 := isDigit_iff.mp (by simpa [is_digit] using k6)
  have hd7 := isDigit_iff.mp (by simpa [is_digit] using k7)
  have hdec := decode10 c0 c1 c2 c3 c4 c5 c6 c7 c8 c9
    (by simpa [is_alpha] using ka0) (by simpa [is_alpha] using ka1) k2 k3 (by simpa [is_alpha] using ka4) (by simpa [is_alpha] using ka5) k6 k7 (by simpa [is_alpha] using ka8) (by simpa [is_alpha] using ka9)
  set v0 := c0.toUpper.toNat - 65 with hv0def
  set v1 := c1.toUpper.toNat - 65 with hv1def
  set v2 := c2.toNat - 48 with hv2def
  set v3 := c3.toNat - 48 with hv3def
  set v4 := c4.toUpper.toNat - 65 with hv4def
  set v5 := c5.toUpper.toNat - 65 with hv5def
  set v6 := c6.toNat - 48 with hv6def
  set v7 := c7.toNat - 48 with hv7def
  set v8 := c8.toUpper.toNat - 65 with hv8def
  set v9 := c9.toUpper.toNat - 65 with hv9def
  have hb0 : v0 ≤ 17 := by omega
  have hbQ0 : ((v0 : ℕ) : ℚ) ≤ 17 := by exact_mod_cast hb0
  have hb00 : (0 : ℚ) ≤ ((v0 : ℕ) : ℚ) := Nat.cast_nonneg v0
  have hb1 : v1 ≤ 17 := by omega
  have hbQ1 : ((v1 : ℕ) : ℚ) ≤ 17 := by exact_mod_cast hb1
  have hb01 : (0 : ℚ) ≤ ((v1 : ℕ) : ℚ) := Nat.cast_nonneg v1
  have hb2 : v2 ≤ 9 := by omega
  have hbQ2 : ((v2 : ℕ) : ℚ) ≤ 9 := by exact_mod_cast hb2
  have hb02 : (0 : ℚ) ≤ ((v2 : ℕ) : ℚ) := Nat.cast_nonneg v2
  have hb3 : v3 ≤ 9 := by omega
  have hbQ3 : ((v3 : ℕ) : ℚ) ≤ 9 := by exact_mod_cast hb3
  have hb03 : (0 : ℚ) ≤ ((v3 : ℕ) : ℚ) := Nat.cast_nonneg v3
  have hb4 : v4 ≤ 23 := by omega
  have hbQ4 : ((v4 : ℕ) : ℚ) ≤ 23 := by exact_mod_cast hb4
  have hb04 : (0 : ℚ) ≤ ((v4 : ℕ) : ℚ) := Nat.cast_nonneg v4
  have hb5 : v5 ≤ 23 := by omega
  have hbQ5 : ((v5 : ℕ) : ℚ) ≤ 23 := by exact_mod_cast hb5
  have hb05 : (0 : ℚ) ≤ ((v5 : ℕ) : ℚ) := Nat.cast_nonneg v5
  have hb6 : v6 ≤ 9 := by omega
  have hbQ6 : ((v6 : ℕ) : ℚ) ≤ 9 := by exact_mod_cast hb6
  have hb06 : (0 : ℚ) ≤ ((v6 : ℕ) : ℚ) := Nat.cast_nonneg v6
  have hb7 : v7 ≤ 9 := by omega
  have hbQ7 : ((v7 : ℕ) : ℚ) ≤ 9 := by exact_mod_cast hb7
  have hb07 : (0 : ℚ) ≤ ((v7 : ℕ) : ℚ) := Nat.cast_nonneg v7
  have hb8 : v8 ≤ 23 := by omega
  have hbQ8 : ((v8 : ℕ) : ℚ) ≤ 23 := by exact_mod_cast hb8
  have hb08 : (0 : ℚ) ≤ ((v8 : ℕ) : ℚ) := Nat.cast_nonneg v8
  have hb9 : v9 ≤ 23 := by omega
  have hbQ9 : ((v9 : ℕ) : ℚ) ≤ 23 := by exact_mod_cast hb9
  have hb09 : (0 : ℚ) ≤ ((v9 : ℕ) : ℚ) := Nat.cast_nonneg v9
  refine ⟨_, _, hdec, ?_⟩
  obtain ⟨henc, hKb1, hKb2⟩ := encode10_eq
    (((v0 : ℕ) : ℚ) * 20 + ((v2 : ℕ) : ℚ) * 2 + ((v4 : ℕ) : ℚ) * (1 / 12) + ((v6 : ℕ) : ℚ) * (1 / 120) + ((v8 : ℕ) : ℚ) * (1 / 2880) + 1 / 5760 - 180)
    (((v1 : ℕ) : ℚ) * 10 + ((v3 : ℕ) : ℚ) * 1 + ((v5 : ℕ) : ℚ) * (1 / 24) + ((v7 : ℕ) : ℚ) * (1 / 240) + ((v9 : ℕ) : ℚ) * (1 / 5760) + 1 / 11520 - 90)
    (by linarith) (by linarith) (by linarith) (by linarith)
  have hKx : ⌊(((v0 : ℕ) : ℚ) * 20 + ((v2 : ℕ) : ℚ) * 2 + ((v4 : ℕ) : ℚ) * (1 / 12) + ((v6 : ℕ) : ℚ) * (1 / 120) + ((v8 : ℕ) : ℚ) * (1 / 2880) + 1 / 5760 - 180 + 180) * 2880⌋₊ = v0 * 57600 + v2 * 5760 + v4 * 240 + v6 * 24 + v8 := by
    rw [show (((v0 : ℕ) : ℚ) * 20 + ((v2 : ℕ) : ℚ) * 2 + ((v4 : ℕ) : ℚ) * (1 / 12) + ((v6 : ℕ) : ℚ) * (1 / 120) + ((v8 : ℕ) : ℚ) * (1 / 2880) + 1 / 5760 - 180 + 180) * 2880
        = ((v0 * 57600 + v2 * 5760 + v4 * 240 + v6 * 24 + v8 : ℕ) : ℚ) + 1 / 2 from by push_cast; ring]
    exact natFloor_half_eq _
  have hKy : ⌊(((v1 : ℕ) : ℚ) * 10 + ((v3 : ℕ) : ℚ) * 1 + ((v5 : ℕ) : ℚ) * (1 / 24) + ((v7 : ℕ) : ℚ) * (1 / 240) + ((v9 : ℕ) : ℚ) * (1 / 5760) + 1 / 11520 - 90 + 90) * 5760⌋₊ = v1 * 57600 + v3 * 5760 + v5 * 240 + v7 * 24 + v9 := by
    rw [show (((v1 : ℕ) : ℚ) * 10 + ((v3 : ℕ) : ℚ) * 1 + ((v5 : ℕ) : ℚ) * (1 / 24) + ((v7 : ℕ) : ℚ) * (1 / 240) + ((v9 : ℕ) : ℚ) * (1 / 5760) + 1 / 11520 - 90 + 90) * 5760
        = ((v1 * 57600 + v3 * 5760 + v5 * 240 + v7 * 24 + v9 : ℕ) : ℚ) + 1 / 2 from by push_cast; ring]
    exact natFloor_half_eq _
  rw [hKx, hKy] at henc
  rw [show (v0 * 57600 + v2 * 5760 + v4 * 240 + v6 * 24 + v8) / 57600 = v0 from by omega,
    show (v0 * 57600 + v2 * 5760 + v4 * 240 + v6 * 24 + v8) / 5760 % 10 = v2 from by omega,
    show (v0 * 57600 + v2 * 5760 + v4 * 240 + v6 * 24 + v8) / 240 % 24 = v4 from by omega,
    show (v0 * 57600 + v2 * 5760 + v4 * 240 + v6 * 24 + v8) / 24 % 10 = v6 from by omega,
    show (v0 * 57600 + v2 * 5760 + v4 * 240 + v6 * 24 + v8) % 24 = v8 from by omega,
    show (v1 * 57600 + v3 * 5760 + v5 * 240 + v7 * 24 + v9) / 57600 = v1 from by omega,
    show (v1 * 57600 + v3 * 5760 + v5 * 240 + v7 * 24 + v9) / 5760 % 10 = v3 from by omega,
    show (v1 * 57600 + v3 * 5760 + v5 * 240 + v7 * 24 + v9) / 240 % 24 = v5 from by omega,
    show (v1 * 57600 + v3 * 5760 + v5 * 240 + v7 * 24 + v9) / 24 % 10 = v7 from by omega,
    show (v1 * 57600 + v3 * 5760 + v5 * 240 + v7 * 24 + v9) % 24 = v9 from by omega] at henc
  have e0 : Char.ofNat (65 + v0) = c0.toUpper :=
    char_eq_of_toNat_eq (by rw [toNat_ofNat_valid (by omega)]; omega)
  have e1 : Char.ofNat (65 + v1) = c1.toUpper :=
    char_eq_of_toNat_eq (by rw [toNat_ofNat_valid (by omega)]; omega)
  have e2 : Char.ofNat (48 + v2) = c2 :=
    char_eq_of_toNat_eq (by rw [toNat_ofNat_valid (by omega)]; omega)
  have e3 : Char.ofNat (48 + v3) = c3 :=
    char_eq_of_toNat_eq (by rw [toNat_ofNat_valid (by omega)]; omega)
  have e4 : Char.ofNat (97 + v4) = c4.toLower :=
    char_eq_of_toNat_eq (by rw [toNat_ofNat_valid (by omega), alpha_toLower_eq c4 ka4]; omega)
  have e5 : Char.ofNat (97 + v5) = c5.toLower :=
    char_eq_of_toNat_eq (by rw [toNat_ofNat_valid (by omega), alpha_toLower_eq c5 ka5]; omega)
  have e6 : Char.ofNat (48 + v6) = c6 :=
    char_eq_of_toNat_eq (by rw [toNat_ofNat_valid (by omega)]; omega)
  have e7 : Char.ofNat (48 + v7) = c7 :=
    char_eq_of_toNat_eq (by rw [toNat_ofNat_valid (by omega)]; omega)
  have e8 : Char.ofNat (65 + v8) = c8.toUpper :=
    char_eq_of_toNat_eq (by rw [toNat_ofNat_valid (by omega)]; omega)
  have e9 : Char.ofNat (65 + v9) = c9.toUpper :=
    char_eq_of_toNat_eq (by rw [toNat_ofNat_valid (by omega)]; omega)
  rw [e0, e1, e2, e3, e4, e5, e6, e7, e8, e9] at henc
  exact henc


theorem normChar_A (c : Char) : normChar 'A' c = c.toUpper := by
  unfold normChar
  rw [if_neg (by decide), if_pos rfl]

theorem normChar_a (c : Char) : normChar 'a' c = c.toLower := by
  unfold normChar
  rw [if_pos rfl]

theorem normChar_0 (c : Char) : normChar '0' c = c := by
  unfold normChar
  rw [if_neg (by decide), if_neg (by decide)]

theorem list_len6 {α : Type} (l : List α) (h : l.length = 6) :
    ∃ a b c d e f, l = [a, b, c, d, e, f] := by
  rcases l with _ | ⟨a, _ | ⟨b, _ | ⟨c, _ | ⟨d, _ | ⟨e, _ | ⟨f, _ | ⟨g, l⟩⟩⟩⟩⟩⟩⟩ <;> simp_all

theorem list_len8 {α : Type} (l : List α) (h : l.length = 8) :
    ∃ a b c d e f g k, l = [a, b, c, d, e, f, g, k] := by
  rcases l with _ | ⟨a, _ | ⟨b, _ | ⟨c, _ | ⟨d, _ | ⟨e, _ | ⟨f, _ | ⟨g, _ | ⟨k, _ | ⟨m, l⟩⟩⟩⟩⟩⟩⟩⟩⟩ <;>
    simp_all

theorem list_len10 {α : Type} (l : List α) (h : l.length = 10) :
    ∃ a b c d e f g k m o, l = [a, b, c, d, e, f, g, k, m, o] := by
  rcases l with _ | ⟨a, _ | ⟨b, _ | ⟨c, _ | ⟨d, _ | ⟨e, _ | ⟨f, _ | ⟨g, _ | ⟨k, _ | ⟨m,
    _ | ⟨o, _ | ⟨u, l⟩⟩⟩⟩⟩⟩⟩⟩⟩⟩⟩ <;> simp_all

/-! Claim theorems. -/

/-- C7: for each n ∈ {4, 6, 8, 10}, `longlat_to_grid(-77.035278, 38.889484, n)`
returns Ok with exactly the first n characters of `"FM18lv53SL"`. -/
theorem known_encoding_fixed_point :
    longlat_to_grid (-77.035278) 38.889484 4 = .ok "FM18" ∧
    longlat_to_grid (-77.035278) 38.889484 6 = .ok "FM18lv" ∧
    longlat_to_grid (-77.035278) 38.889484 8 = .ok "FM18lv53" ∧
    longlat_to_grid (-77.035278) 38.889484 10 = .ok "FM18lv53SL" := by
  refine ⟨?_, ?_, ?_, ?_⟩ <;> with_unfolding_all rfl

/-- C4 (code bug witness): the decoder accepts `"ZZ00"` (letters beyond the
canonical `A`-`R` field range, as flagged by the FIXME in the source) and
returns longitude 321 > 180 and latitude 160.5 > 90, outside the documented
output ranges. -/
theorem decoder_range_bug :
    grid_to_longlat "ZZ00" = .ok (321, 321 / 2) ∧ (180 : ℚ) < 321 ∧ (90 : ℚ) < 321 / 2 :=
  ⟨by with_unfolding_all rfl, by norm_num, by norm_num⟩

/-- C1 (counterexample): `"AA00YY"` is accepted by the decoder (and is a valid
locator in the spec's sense: letters at letter positions, digits at digit
positions), but re-encoding its decoded coordinates at precision 6 yields
`"AA11aa"`, which differs from `"AA00YY"` even after case normalization. -/
theorem roundtrip_counterexample :
    grid_to_longlat "AA00YY" = .ok (-4271 / 24, -4271 / 48) ∧
    longlat_to_grid (-4271 / 24) (-4271 / 48) 6 = .ok "AA11aa" ∧
    "AA11aa".data.map Char.toUpper ≠ "AA00YY".data.map Char.toUpper := by
  refine ⟨by with_unfolding_all rfl, by with_unfolding_all rfl, by decide⟩

/-- C2: `grid_to_longlat` returns Ok exactly when every character passes its
positional class check (the `pattern` list: letter at positions 0,1,4,5,8,9,
digit at positions 2,3,6,7, ASCII only, letters case-insensitive) and the
byte length is 4, 6, 8 or 10; it returns `InvalidGrid` exactly when the
class check fails, and `InvalidGridLength` exactly when the class check
passes but the length is unsupported. -/
theorem decoder_error_contract (grid : String) :
    ((∃ p, grid_to_longlat grid = .ok p) ↔
      gridIsValid grid.data = true ∧ (byteLen grid.data = 4 ∨ byteLen grid.data = 6 ∨
        byteLen grid.data = 8 ∨ byteLen grid.data = 10)) ∧
    (grid_to_longlat grid = .error (.invalidGrid grid) ↔ gridIsValid grid.data = false) ∧
    (grid_to_longlat grid = .error (.invalidGridLength (byteLen grid.data)) ↔
      gridIsValid grid.data = true ∧ ¬(byteLen grid.data = 4 ∨ byteLen grid.data = 6 ∨
        byteLen grid.data = 8 ∨ byteLen grid.data = 10)) := by
  cases hvb : gridIsValid grid.data
  · simp [grid_to_longlat, hvb]
  · by_cases hl : byteLen grid.data = 4 ∨ byteLen grid.data = 6 ∨ byteLen grid.data = 8 ∨
      byteLen grid.data = 10
    · simp [grid_to_longlat, hvb, hl]
    · simp [grid_to_longlat, hvb, hl]

/-- C3: `longlat_to_grid` fails with `InvalidGridLength p` whenever the
precision `p` is not 4/6/8/10, for any coordinates (the precision check
decides first); for a supported precision it fails with `InvalidLongLat`
if and only if the longitude is outside [-180, 180] or the latitude is
outside [-90, 90]. -/
theorem encoder_error_contract (long lat : ℚ) (p : ℕ) :
    (¬(p = 4 ∨ p = 6 ∨ p = 8 ∨ p = 10) →
      longlat_to_grid long lat p = .error (.invalidGridLength p)) ∧
    ((p = 4 ∨ p = 6 ∨ p = 8 ∨ p = 10) →
      (longlat_to_grid long lat p = .error (.invalidLongLat long lat) ↔
        (long < -180 ∨ 180 < long ∨ lat < -90 ∨ 90 < lat))) := by
  constructor
  · intro h
    rw [longlat_to_grid, if_neg h]
  · intro h
    rw [longlat_to_grid, if_pos h]
    have hiff : (¬(-180 ≤ long ∧ long ≤ 180) ∨ ¬(-90 ≤ lat ∧ lat ≤ 90)) ↔
        (long < -180 ∨ 180 < long ∨ lat < -90 ∨ 90 < lat) := by
      simp only [not_and_or, not_le, or_assoc]
    by_cases hr : ¬(-180 ≤ long ∧ long ≤ 180) ∨ ¬(-90 ≤ lat ∧ lat ≤ 90)
    · rw [if_pos hr]
      simp [hiff.mp hr]
    · rw [if_neg hr]
      rw [hiff] at hr
      dsimp only
      split <;> simp [hr]

/-- C3 witness: instantiation at precision 5 (invalid precision) and at
longitude -201 with precision 10 (out-of-range coordinate). -/
theorem encoder_error_contract_witness :
    longlat_to_grid 0 0 5 = .error (.invalidGridLength 5) ∧
    longlat_to_grid (-201) 0 10 = .error (.invalidLongLat (-201) 0) :=
  ⟨(encoder_error_contract 0 0 5).1 (by norm_num),
   ((encoder_error_contract (-201) 0 10).2 (by norm_num)).mpr (by norm_num)⟩

/-- C5: for every locator string that the decoder accepts, the distance from
the locator to itself is exactly 0 (Δλ = Δφ = 0 gives a = 0, hence c = 0). -/
theorem null_distance (g : String) (h : ∃ p, grid_to_longlat g = .ok p) :
    grid_distance g g = .ok 0 := by
  obtain ⟨p, hp⟩ := h
  unfold grid_distance grid_dist_bearing
  rw [hp]
  dsimp only
  rw [distBearing_self_pair]

/-- C5 witness: instantiation at the valid locator `"AA00"`. -/
theorem null_distance_witness : grid_distance "AA00" "AA00" = .ok 0 :=
  null_distance "AA00" ⟨(-179, -179 / 2), by with_unfolding_all rfl⟩

/-- C6: whenever `grid_dist_bearing` succeeds, the bearing component lies in
[0, 360), and `grid_bearing` returns exactly that component. -/
theorem bearing_range (f t : String) (d b : ℝ) (h : grid_dist_bearing f t = .ok (d, b)) :
    (0 ≤ b ∧ b < 360) ∧ grid_bearing f t = .ok b := by
  unfold grid_dist_bearing at h
  rcases hf : grid_to_longlat f with e | p
  · rw [hf] at h
    exact absurd h (by simp)
  · rcases ht : grid_to_longlat t with e | q
    · rw [hf, ht] at h
      exact absurd h (by simp)
    · rw [hf, ht] at h
      dsimp only at h
      have hpair : distBearing p.1 p.2 q.1 q.2 = (d, b) := Except.ok.inj h
      have hb : (distBearing p.1 p.2 q.1 q.2).2 = b := by rw [hpair]
      constructor
      · rw [← hb]
        exact distBearing_snd_mem p.1 p.2 q.1 q.2
      · unfold grid_bearing grid_dist_bearing
        rw [hf, ht]
        dsimp only
        rw [hpair]

/-- C6 witness: instantiation at `grid_dist_bearing "AA00" "AA00" = Ok (0, 0)`. -/
theorem bearing_range_witness :
    ((0 : ℝ) ≤ 0 ∧ (0 : ℝ) < 360) ∧ grid_bearing "AA00" "AA00" = .ok 0 :=
  bearing_range "AA00" "AA00" 0 0 grid_dist_bearing_self_AA00

/-- C9: for every in-range coordinate pair and every supported precision n,
encoding succeeds, decoding the produced locator succeeds, and each decoded
coordinate differs from the input by at most half the finest-tier width for
length n (the decoded point is the center of the cell containing the input). -/
theorem encode_decode_roundtrip (long lat : ℚ) (n : ℕ)
    (hn : n = 4 ∨ n = 6 ∨ n = 8 ∨ n = 10) (h1 : -180 ≤ long) (h2 : long ≤ 180)
    (h3 : -90 ≤ lat) (h4 : lat ≤ 90) :
    ∃ s p, longlat_to_grid long lat n = .ok s ∧ grid_to_longlat s = .ok p ∧
      |p.1 - long| ≤ LONG_MULT.getD (n / 2 - 1) 0 / 2 ∧
      |p.2 - lat| ≤ LAT_MULT.getD (n / 2 - 1) 0 / 2 := by
  rcases hn with rfl | rfl | rfl | rfl
  · obtain ⟨cs, henc, _, _, q, hdec, hbx, hby⟩ := roundA4 long lat h1 h2 h3 h4
    refine ⟨_, q, henc, hdec, ?_, ?_⟩
    · exact hbx.trans_eq (show (1 : ℚ) = LONG_MULT.getD (4 / 2 - 1) 0 / 2 from by
        with_unfolding_all rfl)
    · exact hby.trans_eq (show (1 / 2 : ℚ) = LAT_MULT.getD (4 / 2 - 1) 0 / 2 from by
        with_unfolding_all rfl)
  · obtain ⟨cs, henc, _, _, q, hdec, hbx, hby⟩ := roundA6 long lat h1 h2 h3 h4
    refine ⟨_, q, henc, hdec, ?_, ?_⟩
    · exact hbx.trans_eq (show (1 / 24 : ℚ) = LONG_MULT.getD (6 / 2 - 1) 0 / 2 from by
        with_unfolding_all rfl)
    · exact hby.trans_eq (show (1 / 48 : ℚ) = LAT_MULT.getD (6 / 2 - 1) 0 / 2 from by
        with_unfolding_all rfl)
  · obtain ⟨cs, henc, _, _, q, hdec, hbx, hby⟩ := roundA8 long lat h1 h2 h3 h4
    refine ⟨_, q, henc, hdec, ?_, ?_⟩
    · exact hbx.trans_eq (show (1 / 240 : ℚ) = LONG_MULT.getD (8 / 2 - 1) 0 / 2 from by
        with_unfolding_all rfl)
    · exact hby.trans_eq (show (1 / 480 : ℚ) = LAT_MULT.getD (8 / 2 - 1) 0 / 2 from by
        with_unfolding_all rfl)
  · obtain ⟨cs, henc, _, _, q, hdec, hbx, hby⟩ := roundA10 long lat h1 h2 h3 h4
    refine ⟨_, q, henc, hdec, ?_, ?_⟩
    · exact hbx.trans_eq (show (1 / 5760 : ℚ) = LONG_MULT.getD (10 / 2 - 1) 0 / 2 from by
        with_unfolding_all rfl)
    · exact hby.trans_eq (show (1 / 11520 : ℚ) = LAT_MULT.getD (10 / 2 - 1) 0 / 2 from by
        with_unfolding_all rfl)

/-- C9 witness: instantiation at the test-point coordinates and precision 6. -/
theorem encode_decode_roundtrip_witness :
    ∃ s p, longlat_to_grid (-77.035278) 38.889484 6 = .ok s ∧ grid_to_longlat s = .ok p ∧
      |p.1 - (-77.035278)| ≤ LONG_MULT.getD (6 / 2 - 1) 0 / 2 ∧
      |p.2 - 38.889484| ≤ LAT_MULT.getD (6 / 2 - 1) 0 / 2 :=
  encode_decode_roundtrip (-77.035278) 38.889484 6 (by norm_num) (by norm_num)
    (by norm_num) (by norm_num) (by norm_num)

/-- C10: for every in-range coordinate pair and every supported precision n,
the encoder returns a string of exactly n characters, with uppercase letters
at field and superextended-square positions, lowercase letters at subsquare
positions, and ASCII digits at square and extended-square positions, and the
decoder accepts that string (so the Unknown branch is never taken). -/
theorem encoder_output_shape (long lat : ℚ) (n : ℕ)
    (hn : n = 4 ∨ n = 6 ∨ n = 8 ∨ n = 10) (h1 : -180 ≤ long) (h2 : long ≤ 180)
    (h3 : -90 ≤ lat) (h4 : lat ≤ 90) :
    ∃ cs : List Char, longlat_to_grid long lat n = .ok (String.mk cs) ∧ cs.length = n ∧
      ((cs.zip shapePattern).all fun p => p.2 p.1) = true ∧
      ∃ p, grid_to_longlat (String.mk cs) = .ok p := by
  rcases hn with rfl | rfl | rfl | rfl
  · obtain ⟨cs, henc, hlen, hshape, q, hdec, _, _⟩ := roundA4 long lat h1 h2 h3 h4
    exact ⟨cs, henc, hlen, hshape, q, hdec⟩
  · obtain ⟨cs, henc, hlen, hshape, q, hdec, _, _⟩ := roundA6 long lat h1 h2 h3 h4
    exact ⟨cs, henc, hlen, hshape, q, hdec⟩
  · obtain ⟨cs, henc, hlen, hshape, q, hdec, _, _⟩ := roundA8 long lat h1 h2 h3 h4
    exact ⟨cs, henc, hlen, hshape, q, hdec⟩
  · obtain ⟨cs, henc, hlen, hshape, q, hdec, _, _⟩ := roundA10 long lat h1 h2 h3 h4
    exact ⟨cs, henc, hlen, hshape, q, hdec⟩

/-- C10 witness: instantiation at the test-point coordinates and precision 10. -/
theorem encoder_output_shape_witness :
    ∃ cs : List Char, longlat_to_grid (-77.035278) 38.889484 10 = .ok (String.mk cs) ∧
      cs.length = 10 ∧ ((cs.zip shapePattern).all fun p => p.2 p.1) = true ∧
      ∃ p, grid_to_longlat (String.mk cs) = .ok p :=
  encoder_output_shape (-77.035278) 38.889484 10 (by norm_num) (by norm_num)
    (by norm_num) (by norm_num) (by norm_num)

/-- C1 (amended): for every locator string of supported length whose
characters lie in the canonical Maidenhead alphabets (field letters A-R,
digits 0-9, subsquare and superextended-square letters A-X, all letters
case-insensitive), encoding the decoded coordinates at the same precision
returns exactly the case-normalized form of the input (field and
superextended-square letters uppercased, subsquare letters lowercased). -/
theorem roundtrip_canonical (grid : String) (h : canonicalValid grid = true) :
    ∃ long lat, grid_to_longlat grid = .ok (long, lat) ∧
      longlat_to_grid long lat (byteLen grid.data) = .ok (String.mk (normalize grid.data)) := by
  simp only [canonicalValid, Bool.and_eq_true, Bool.or_eq_true, decide_eq_true_eq] at h
  obtain ⟨hlen, hall⟩ := h
  have hlen10 : byteLen grid.data ≤ 10 := by rcases hlen with ((h | h) | h) | h <;> omega
  have hcl : byteLen grid.data = grid.data.length :=
    zip_all_ascii grid.data canonPattern canonPattern_ascii
      (by
        have h1 := byteLen_ge_length grid.data
        have h2 : canonPattern.length = 10 := rfl
        omega) hall
  rcases hlen with ((hb | hb) | hb) | hb
  · obtain ⟨c0, c1, c2, c3, hdata⟩ := list_len4 grid.data (by omega)
    rw [hdata] at hall
    simp only [canonPattern, List.zip_cons_cons, List.zip_nil_right, List.all_cons,
      List.all_nil, Bool.and_eq_true] at hall
    obtain ⟨k0, k1, k2, k3, -⟩ := hall
    obtain ⟨X, Y, hdec, henc⟩ := roundB4 c0 c1 c2 c3 k0 k1 k2 k3
    refine ⟨X, Y, ?_, ?_⟩
    · rw [show grid = String.mk [c0, c1, c2, c3] from by rw [← hdata]]
      exact hdec
    · rw [hb, hdata]
      rw [show String.mk (normalize [c0, c1, c2, c3])
          = String.mk [c0.toUpper, c1.toUpper, c2, c3] from by
        simp [normalize, base_chars_list, normChar_A, normChar_0]]
      exact henc
  · obtain ⟨c0, c1, c2, c3, c4, c5, hdata⟩ := list_len6 grid.data (by omega)
    rw [hdata] at hall
    simp only [canonPattern, List.zip_cons_cons, List.zip_nil_right, List.all_cons,
      List.all_nil, Bool.and_eq_true] at hall
    obtain ⟨k0, k1, k2, k3, k4, k5, -⟩ := hall
    obtain ⟨X, Y, hdec, henc⟩ := roundB6 c0 c1 c2 c3 c4 c5 k0 k1 k2 k3 k4 k5
    refine ⟨X, Y, ?_, ?_⟩
    · rw [show grid = String.mk [c0, c1, c2, c3, c4, c5] from by rw [← hdata]]
      exact hdec
    · rw [hb, hdata]
      rw [show String.mk (normalize [c0, c1, c2, c3, c4, c5])
          = String.mk [c0.toUpper, c1.toUpper, c2, c3, c4.toLower, c5.toLower] from by
        simp [normalize, base_chars_list, normChar_A, normChar_a, normChar_0]]
      exact henc
  · obtain ⟨c0, c1, c2, c3, c4, c5, c6, c7, hdata⟩ := list_len8 grid.data (by omega)
    rw [hdata] at hall
    simp only [canonPattern, List.zip_cons_cons, List.zip_nil_right, List.all_cons,
      List.all_nil, Bool.and_eq_true] at hall
    obtain ⟨k0, k1, k2, k3, k4, k5, k6, k7, -⟩ := hall
    obtain ⟨X, Y, hdec, henc⟩ := roundB8 c0 c1 c2 c3 c4 c5 c6 c7 k0 k1 k2 k3 k4 k5 k6 k7
    refine ⟨X, Y, ?_, ?_⟩
    · rw [show grid = String.mk [c0, c1, c2, c3, c4, c5, c6, c7] from by rw [← hdata]]
      exact hdec
    · rw [hb, hdata]
      rw [show String.mk (normalize [c0, c1, c2, c3, c4, c5, c6, c7])
          = String.mk [c0.toUpper, c1.toUpper, c2, c3, c4.toLower, c5.toLower, c6, c7] from by
        simp [normalize, base_chars_list, normChar_A, normChar_a, normChar_0]]
      exact henc
  · obtain ⟨c0, c1, c2, c3, c4, c5, c6, c7, c8, c9, hdata⟩ := list_len10 grid.data (by omega)
    rw [hdata] at hall
    simp only [canonPattern, List.zip_cons_cons, List.zip_nil_right, List.all_cons,
      List.all_nil, Bool.and_eq_true] at hall
    obtain ⟨k0, k1, k2, k3, k4, k5, k6, k7, k8, k9, -⟩ := hall
    obtain ⟨X, Y, hdec, henc⟩ :=
      roundB10 c0 c1 c2 c3 c4 c5 c6 c7 c8 c9 k0 k1 k2 k3 k4 k5 k6 k7 k8 k9
    refine ⟨X, Y, ?_, ?_⟩
    · rw [show grid = String.mk [c0, c1, c2, c3, c4, c5, c6, c7, c8, c9] from by rw [← hdata]]
      exact hdec
    · rw [hb, hdata]
      rw [show String.mk (normalize [c0, c1, c2, c3, c4, c5, c6, c7, c8, c9])
          = String.mk [c0.toUpper, c1.toUpper, c2, c3, c4.toLower, c5.toLower, c6, c7,
            c8.toUpper, c9.toUpper] from by
        simp [normalize, base_chars_list, normChar_A, normChar_a, normChar_0]]
      exact henc

/-- C1 witness: instantiation at the canonical locator `"FM18lv53SL"`. -/
theorem roundtrip_canonical_witness :
    ∃ long lat, grid_to_longlat "FM18lv53SL" = .ok (long, lat) ∧
      longlat_to_grid long lat (byteLen "FM18lv53SL".data)
        = .ok (String.mk (normalize "FM18lv53SL".data)) :=
  roundtrip_canonical "FM18lv53SL" (by decide)

end Maidenhead
